import Mathlib

/-!
Shallow embedding of the ozz-animation runtime sampling job
(src/animation/runtime/sampling_job.cc) together with proofs about it.

Modelling conventions:
* C++ float scalars are modelled as exact rationals (ℚ); float literal
  constants are modelled by the exact rational value noted at each site.
* The flat int cache arrays and the per-group outdated bitsets are modelled
  as total functions on ℕ.  The C code addresses a dirty bit as byte
  `track / 32`, bit `(track & 0x1f) / 4`, which is one bit per soa group
  `track / 4`; the model indexes the bitset by that group number directly.
* Pure float helpers of the maths library whose implementations are not
  among the embedded sources, or are float bit-pattern tricks
  (HalfToFloat, RcpEst, RSqrtEst, the kSqrt2 constant), are supplied as
  explicit parameters through `MathOps`, mirroring the C++ template
  parameters and the spec treating the vector-maths library as an external
  collaborator.
* Animation pointer identity is modelled by a numeric identifier paired
  with the animation value.
-/

/-- Wide (4-lane, structure-of-arrays) float3 value, one rational per lane. -/
structure SoaFloat3 where
  x : Fin 4 → ℚ
  y : Fin 4 → ℚ
  z : Fin 4 → ℚ

/-- Wide (4-lane) quaternion value. -/
structure SoaQuaternion where
  x : Fin 4 → ℚ
  y : Fin 4 → ℚ
  z : Fin 4 → ℚ
  w : Fin 4 → ℚ

/-- Wide transform written to the output buffer, one per soa track group. -/
structure SoaTransform where
  translation : SoaFloat3
  rotation : SoaQuaternion
  scale : SoaFloat3

/-- External scalar maths helpers consumed by the sampling job.  The spec
declares the vector-maths library an external collaborator; RcpEst and
RSqrtEst are float bit-pattern estimates and HalfToFloat and kSqrt2 live in
headers that are not among the embedded sources, so they are taken as
parameters (as the C++ code takes the decompression functor as a template
parameter). -/
structure MathOps where
  rcpEst : ℚ → ℚ
  rsqrtEst : ℚ → ℚ
  halfToFloat : ℕ → ℚ
  sqrt2 : ℚ

/-- Modelled from the spec: scalar clamp used by Run (`math::Clamp(0, ratio, 1)`,
math_ex.h is not among the embedded sources); ozz defines
Clamp(a, v, b) = Max(a, Min(v, b)). -/
def clampQ (a v b : ℚ) : ℚ := max a (min v b)

/-- Modelled from the spec: translation/scale keyframe — channel-local ratio,
back-distance to the previous keyframe of the same track, and three
half-precision components stored as 16-bit patterns
(animation_keyframe.h is not among the embedded sources). -/
structure Float3Key where
  ratio : ℚ
  previous : ℕ
  value : Fin 3 → ℕ

instance : Inhabited Float3Key := ⟨⟨0, 0, fun _ => 0⟩⟩

/-- Modelled from the spec: rotation keyframe — ratio, back-distance, the 2-bit
index of the dropped (largest) quaternion component, the sign bit of the
reconstructed component and three signed 16-bit quantized components
(animation_keyframe.h is not among the embedded sources). -/
structure QuaternionKey where
  ratio : ℚ
  previous : ℕ
  largest : Fin 4
  sign : Bool
  value : Fin 3 → ℤ

instance : Inhabited QuaternionKey := ⟨⟨0, 0, 0, false, fun _ => 0⟩⟩

/-- Access to the two header fields every compressed keyframe kind shares,
corresponding to the `_Key` template parameter of the C++ code. -/
class TrackKey (κ : Type) where
  ratio : κ → ℚ
  previous : κ → ℕ

instance : TrackKey Float3Key := ⟨Float3Key.ratio, Float3Key.previous⟩

instance : TrackKey QuaternionKey := ⟨QuaternionKey.ratio, QuaternionKey.previous⟩

/-- Keyframe at stream position `i` (reads are in bounds under the validity
hypotheses of the theorems below). -/
def keyAt {κ : Type} [Inhabited κ] (keys : List κ) (i : ℕ) : κ := keys.getD i default

/-- Ratio of the keyframe at stream position `i`. -/
def kratio {κ : Type} [Inhabited κ] [TrackKey κ] (keys : List κ) (i : ℕ) : ℚ :=
  TrackKey.ratio (keyAt keys i)

/-- Back-distance stored on the keyframe at stream position `i`. -/
def kprev {κ : Type} [Inhabited κ] [TrackKey κ] (keys : List κ) (i : ℕ) : ℕ :=
  TrackKey.previous (keyAt keys i)

/-- Stream position of the previous keyframe of the same track,
`i - keys[i].previous` as computed by the C++ code. -/
def predTarget {κ : Type} [Inhabited κ] [TrackKey κ] (keys : List κ) (i : ℕ) : ℕ :=
  i - kprev keys i

/-- Ratio of the previous keyframe of the same track,
`keys[i - keys[i].previous].ratio` — the quantity the forward loop compares
against the query ratio. -/
def predRatio {κ : Type} [Inhabited κ] [TrackKey κ] (keys : List κ) (i : ℕ) : ℚ :=
  kratio keys (predTarget keys i)

/-- Embeds `TrackForward` of sampling_job.cc: finds the track whose cached
last-keyframe entry equals `key - keys[key].previous`, scanning the last
window `[numTracks, 2*numTracks)` from `lastTrack + numTracks` up, then
wrapping from the window start (the unbounded second C loop is searched over
the window, its assertion guaranteeing success there). -/
def TrackForward {κ : Type} [Inhabited κ] [TrackKey κ] (cache : ℕ → ℕ) (keys : List κ)
    (key lastTrack numTracks : ℕ) : ℕ :=
  let target := key - kprev keys key
  match (List.range' (lastTrack + numTracks) (numTracks - lastTrack)).find?
      (fun e => cache e == target) with
  | some e => e - numTracks
  | none =>
    match (List.range' numTracks numTracks).find? (fun e => cache e == target) with
    | some e => e - numTracks
    | none => 0

/-- Embeds `TrackBackward` of sampling_job.cc: finds the track whose cached
last-keyframe entry equals `target`, scanning from `lastTrack + numTracks`
down to the window start, then wrapping from the window end downwards. -/
def TrackBackward (cache : ℕ → ℕ) (target lastTrack numTracks : ℕ) : ℕ :=
  match ((List.range' numTracks (lastTrack + 1)).reverse).find?
      (fun e => cache e == target) with
  | some e => e - numTracks
  | none =>
    match ((List.range' numTracks numTracks).reverse).find? (fun e => cache e == target) with
    | some e => e - numTracks
    | none => 0

/-- State threaded through the two loops of `UpdateCacheCursor`: the stream
cursor, the last found track (locality hint), the `2*numTracks` bracket cache
and the per-group outdated flags. -/
structure ScanState where
  cursor : ℕ
  track : ℕ
  cache : ℕ → ℕ
  outdated : ℕ → Bool

/-- Embeds the forward (reading) loop of `UpdateCacheCursor`: while the
keyframe at `cursor - keys[cursor].previous` (the owning track's current last
bracket) has ratio ≤ the query ratio, the entry at the cursor becomes the
track's new last bracket, the old last becomes the penultimate, the track's
group is flagged outdated and the cursor advances.  The fuel argument bounds
the iteration count; `keys.length` fuel is always sufficient because the
cursor strictly increases and is bounded by `keys.length`. -/
def ForwardLoop {κ : Type} [Inhabited κ] [TrackKey κ] (r : ℚ) (keys : List κ)
    (numTracks : ℕ) : ℕ → ℕ → ℕ → (ℕ → ℕ) → (ℕ → Bool) → ScanState
  | 0, cursor, track, cache, outdated => ⟨cursor, track, cache, outdated⟩
  | fuel + 1, cursor, track, cache, outdated =>
    if cursor < keys.length ∧ predRatio keys cursor ≤ r then
      let track' := TrackForward cache keys cursor track numTracks
      ForwardLoop r keys numTracks fuel (cursor + 1) track'
        (Function.update (Function.update cache track' (cache (track' + numTracks)))
          (track' + numTracks) cursor)
        (Function.update outdated (track' / 4) true)
    else ⟨cursor, track, cache, outdated⟩

/-- Embeds the rewind loop of `UpdateCacheCursor`: while the penultimate
keyframe of the track owning the entry just before the cursor has ratio
greater than the query ratio, that track's last bracket is restored to its
penultimate, the new penultimate is recovered through the entry's own
back-distance, the group is flagged outdated and the cursor retreats.
Recursion is on the cursor itself, which the loop decrements. -/
def RewindLoop {κ : Type} [Inhabited κ] [TrackKey κ] (r : ℚ) (keys : List κ)
    (numTracks : ℕ) : ℕ → ℕ → (ℕ → ℕ) → (ℕ → Bool) → ScanState
  | 0, track, cache, outdated => ⟨0, track, cache, outdated⟩
  | c + 1, track, cache, outdated =>
    if r < predRatio keys c then
      let track' := TrackBackward cache c track numTracks
      let b := cache track'
      RewindLoop r keys numTracks c track'
        (Function.update (Function.update cache (track' + numTracks) b) track'
          (b - kprev keys b))
        (Function.update outdated (track' / 4) true)
    else ⟨c + 1, track, cache, outdated⟩

/-- Per-channel slice of the sampling context: stream cursor, bracket cache
and outdated flags. -/
structure ChannelState where
  cursor : ℕ
  cache : ℕ → ℕ
  outdated : ℕ → Bool

/-- Embeds `UpdateCacheCursor` of sampling_job.cc: seeds the cache from the
first `2*numTracks` stream entries when the cursor is 0 (flagging exactly the
valid soa groups outdated, byte-for-byte as the C code masks the last
outdated byte), then runs the forward loop followed by the rewind loop. -/
def UpdateCacheCursor {κ : Type} [Inhabited κ] [TrackKey κ] (r : ℚ) (numSoaTracks : ℕ)
    (keys : List κ) (st : ChannelState) : ChannelState :=
  let numTracks := numSoaTracks * 4
  let numOutdatedFlags := (numSoaTracks + 7) / 8
  let cursor0 := if st.cursor = 0 then numTracks * 2 else st.cursor
  let cache0 : ℕ → ℕ :=
    if st.cursor = 0 then fun i => if i < numTracks * 2 then i else st.cache i else st.cache
  let outdated0 : ℕ → Bool :=
    if st.cursor = 0 then
      fun g => if g < 8 * numOutdatedFlags then decide (g < numSoaTracks) else st.outdated g
    else st.outdated
  let fw := ForwardLoop r keys numTracks keys.length cursor0 0 cache0 outdated0
  let rw := RewindLoop r keys numTracks fw.cursor fw.track fw.cache fw.outdated
  ⟨rw.cursor, rw.cache, rw.outdated⟩

/-- Interpolation operands of one track group for one channel: bracket ratios
and decompressed values for the penultimate (index 0) and last (index 1)
sides, mirroring `InterpSoaFloat3` / `InterpSoaQuaternion`. -/
structure InterpEntry (V : Type) where
  ratio0 : Fin 4 → ℚ
  value0 : V
  ratio1 : Fin 4 → ℚ
  value1 : V

/-- Operands `UpdateInterpKeyframes` recomputes for an outdated group `g`:
both bracket ratios and both decompressed wide values, read through the
bracket cache (penultimates at `g*4 + lane`, lasts at
`(g + numSoaTracks)*4 + lane`). -/
def recomputeEntry {κ V : Type} [Inhabited κ] [TrackKey κ] (numSoaTracks : ℕ)
    (keys : List κ) (cache : ℕ → ℕ) (dec : κ → κ → κ → κ → V) (g : ℕ) : InterpEntry V :=
  let pen := g * 4
  let lst := (g + numSoaTracks) * 4
  { ratio0 := fun l => kratio keys (cache (pen + l.val))
    value0 := dec (keyAt keys (cache (pen + 0))) (keyAt keys (cache (pen + 1)))
      (keyAt keys (cache (pen + 2))) (keyAt keys (cache (pen + 3)))
    ratio1 := fun l => kratio keys (cache (lst + l.val))
    value1 := dec (keyAt keys (cache (lst + 0))) (keyAt keys (cache (lst + 1)))
      (keyAt keys (cache (lst + 2))) (keyAt keys (cache (lst + 3))) }

/-- Embeds `UpdateInterpKeyframes` of sampling_job.cc: every group covered by
the outdated bytes (`8 * ((numSoaTracks + 7) / 8)` groups) has its flag
cleared, and each group whose flag was set has its interpolation operands
recomputed from the current bracket cache.  The C byte-and-bit scan is
modelled as one pass over the group indices the bytes cover. -/
def UpdateInterpKeyframes {κ V : Type} [Inhabited κ] [TrackKey κ] (numSoaTracks : ℕ)
    (keys : List κ) (cache : ℕ → ℕ) (outdated : ℕ → Bool) (interp : ℕ → InterpEntry V)
    (dec : κ → κ → κ → κ → V) : (ℕ → Bool) × (ℕ → InterpEntry V) :=
  (List.range (8 * ((numSoaTracks + 7) / 8))).foldl
    (fun st g =>
      (Function.update st.1 g false,
       if st.1 g then Function.update st.2 g (recomputeEntry numSoaTracks keys cache dec g)
       else st.2))
    (outdated, interp)

/-- Embeds `DecompressFloat3` of sampling_job.cc: each of the three wide
components gathers the matching half-precision component of the four keys
through `HalfToFloat`. -/
def DecompressFloat3 (ops : MathOps) (k0 k1 k2 k3 : Float3Key) : SoaFloat3 :=
  let ks : Fin 4 → Float3Key := ![k0, k1, k2, k3]
  { x := fun l => ops.halfToFloat ((ks l).value 0)
    y := fun l => ops.halfToFloat ((ks l).value 1)
    z := fun l => ops.halfToFloat ((ks l).value 2) }

/-- Embeds the constant `kCpntMapping` of sampling_job.cc, the per-largest
component assignation table of the output quaternion. -/
def kCpntMapping : Fin 4 → Fin 4 → Fin 3 :=
  ![![0, 0, 1, 2], ![0, 0, 1, 2], ![0, 1, 0, 2], ![0, 1, 2, 0]]

/-- Embeds `DecompressQuaternion` of sampling_job.cc over exact rationals:
per key the mapping row of its largest index scatters the three quantized
values across the four component slots, the largest slot is reset to 0,
values are scaled by `1 / (32767 * kSqrt2)`, the largest component is rebuilt
as `ww0 * RSqrtEst(ww0)` with `ww0 = max(1e-16, 1 - dot)` and re-signed, and
is merged back into the largest slot.  The float constants kSqrt2 and the
reciprocal-sqrt estimate come from `ops`; the bitwise sign injection
(`Or(w0, sign << 31)`) is modelled as negation of the nonnegative `w0`, and
the float literal 1e-16f as the exact rational 1/10^16. -/
def DecompressQuaternion (ops : MathOps) (k0 k1 k2 k3 : QuaternionKey) : SoaQuaternion :=
  let ks : Fin 4 → QuaternionKey := ![k0, k1, k2, k3]
  let m : Fin 4 → Fin 4 → Fin 3 := fun j => kCpntMapping (ks j).largest
  let cmpKeys : Fin 4 → Fin 4 → ℤ :=
    fun i j => if (ks j).largest = i then 0 else (ks j).value (m j i)
  let int2Float : ℚ := 1 / (32767 * ops.sqrt2)
  let cpnt : Fin 4 → Fin 4 → ℚ := fun i j => int2Float * ((cmpKeys i j : ℤ) : ℚ)
  let dot : Fin 4 → ℚ := fun j =>
    cpnt 0 j * cpnt 0 j + cpnt 1 j * cpnt 1 j + cpnt 2 j * cpnt 2 j + cpnt 3 j * cpnt 3 j
  let ww0 : Fin 4 → ℚ := fun j => max (1 / 10000000000000000) (1 - dot j)
  let w0 : Fin 4 → ℚ := fun j => ww0 j * ops.rsqrtEst (ww0 j)
  let restored : Fin 4 → ℚ := fun j => if (ks j).sign then -(w0 j) else w0 j
  let final : Fin 4 → Fin 4 → ℚ :=
    fun i j => if (ks j).largest = i then restored j else cpnt i j
  { x := final 0, y := final 1, z := final 2, w := final 3 }

/-- Modelled from the spec: componentwise linear interpolation of wide float3
values (soa_float.h is not among the embedded sources); ozz defines
Lerp(a, b, f) = (b - a) * f + a. -/
def LerpSoaFloat3 (a b : SoaFloat3) (f : Fin 4 → ℚ) : SoaFloat3 :=
  { x := fun l => (b.x l - a.x l) * f l + a.x l
    y := fun l => (b.y l - a.y l) * f l + a.y l
    z := fun l => (b.z l - a.z l) * f l + a.z l }

/-- Modelled from the spec: normalized linear blend of wide quaternions
(soa_quaternion.h is not among the embedded sources); NLerpEst lerps
componentwise and scales by the reciprocal-sqrt estimate of the squared
length. -/
def NLerpEstSoaQuaternion (ops : MathOps) (a b : SoaQuaternion) (f : Fin 4 → ℚ) :
    SoaQuaternion :=
  let lx : Fin 4 → ℚ := fun l => (b.x l - a.x l) * f l + a.x l
  let ly : Fin 4 → ℚ := fun l => (b.y l - a.y l) * f l + a.y l
  let lz : Fin 4 → ℚ := fun l => (b.z l - a.z l) * f l + a.z l
  let lw : Fin 4 → ℚ := fun l => (b.w l - a.w l) * f l + a.w l
  let len2 : Fin 4 → ℚ := fun l => lx l * lx l + ly l * ly l + lz l * lz l + lw l * lw l
  { x := fun l => lx l * ops.rsqrtEst (len2 l)
    y := fun l => ly l * ops.rsqrtEst (len2 l)
    z := fun l => lz l * ops.rsqrtEst (len2 l)
    w := fun l => lw l * ops.rsqrtEst (len2 l) }

/-- Body of the per-group interpolation loop of `Interpolates`: a blend
coefficient per channel from the bracket ratios (difference times reciprocal
estimate), then componentwise lerp for translation and scale and normalized
lerp for rotation. -/
def interpGroup (ops : MathOps) (animRatio : ℚ) (t : InterpEntry SoaFloat3)
    (q : InterpEntry SoaQuaternion) (s : InterpEntry SoaFloat3) : SoaTransform :=
  let tf : Fin 4 → ℚ :=
    fun l => (animRatio - t.ratio0 l) * ops.rcpEst (t.ratio1 l - t.ratio0 l)
  let qf : Fin 4 → ℚ :=
    fun l => (animRatio - q.ratio0 l) * ops.rcpEst (q.ratio1 l - q.ratio0 l)
  let sf : Fin 4 → ℚ :=
    fun l => (animRatio - s.ratio0 l) * ops.rcpEst (s.ratio1 l - s.ratio0 l)
  { translation := LerpSoaFloat3 t.value0 t.value1 tf
    rotation := NLerpEstSoaQuaternion ops q.value0 q.value1 qf
    scale := LerpSoaFloat3 s.value0 s.value1 sf }

/-- Embeds `Interpolates` of sampling_job.cc: for every group, the blended
wide transform is written to the output buffer at the group index. -/
def Interpolates (ops : MathOps) (animRatio : ℚ) (numSoaTracks : ℕ)
    (translations : ℕ → InterpEntry SoaFloat3) (rotations : ℕ → InterpEntry SoaQuaternion)
    (scales : ℕ → InterpEntry SoaFloat3) (output : ℕ → SoaTransform) : ℕ → SoaTransform :=
  (List.range numSoaTracks).foldl
    (fun out i =>
      Function.update out i
        (interpGroup ops animRatio (translations i) (rotations i) (scales i)))
    output

/-- Animation clip as consumed by the sampling job: the shared soa track
count and the three sorted compressed streams. -/
structure Animation where
  numSoaTracks : ℕ
  translations : List Float3Key
  rotations : List QuaternionKey
  scales : List Float3Key

/-- Embeds `SamplingJob::Context`: capacity, identity of the animation last
stepped against, last ratio, the three channel cursors with their bracket
caches and outdated bitsets, and the three interpolation operand buffers. -/
structure Context where
  maxSoaTracks : ℕ
  lastAnimation : Option ℕ
  lastRatio : ℚ
  translationState : ChannelState
  rotationState : ChannelState
  scaleState : ChannelState
  soaTranslations : ℕ → InterpEntry SoaFloat3
  soaRotations : ℕ → InterpEntry SoaQuaternion
  soaScales : ℕ → InterpEntry SoaFloat3

/-- Embeds the constant `kRestartOverhead = .05f` of `Context::Step`; the
float literal is modelled as the exact rational 1/20. -/
def kRestartOverhead : ℚ := mkRat 1 20

/-- Embeds `SamplingJob::Context::Step`: the three channel cursors are reset
to 0 when the animation identity changed or when rewinding far enough that a
restart is cheaper (`ratio_ > kRestartOverhead && ratio_ - r > r`); the
animation identity is recorded in the reset branch (elsewhere it is already
current) and the ratio is recorded unconditionally. -/
def ContextStep (ctx : Context) (animId : ℕ) (r : ℚ) : Context :=
  let changed := ctx.lastAnimation ≠ some animId
  let restart := kRestartOverhead < ctx.lastRatio ∧ r < ctx.lastRatio - r
  if changed ∨ restart then
    { ctx with
      lastAnimation := some animId,
      lastRatio := r,
      translationState := { ctx.translationState with cursor := 0 },
      rotationState := { ctx.rotationState with cursor := 0 },
      scaleState := { ctx.scaleState with cursor := 0 } }
  else { ctx with lastRatio := r }

/-- Embeds `SamplingJob`: query ratio, optional animation (with its pointer
identity), optional context and the size of the caller's output buffer. -/
structure SamplingJob where
  ratio : ℚ
  animation : Option (ℕ × Animation)
  context : Option Context
  outputSize : ℕ

/-- Embeds `SamplingJob::Validate`: false on a missing animation or context,
otherwise requires a non-empty output buffer, output size at least the soa
track count and context capacity at least the soa track count. -/
def SamplingJob.Validate (job : SamplingJob) : Bool :=
  match job.animation, job.context with
  | some (_, anim), some ctx =>
    (!(job.outputSize == 0)) && decide (anim.numSoaTracks ≤ job.outputSize)
      && decide (anim.numSoaTracks ≤ ctx.maxSoaTracks)
  | _, _ => false

/-- Success path of `SamplingJob::Run` after the clamp: steps the context,
then per channel (translation, rotation, scale in this order) updates the
cache cursor and the interpolation operands, and finally interpolates into
the output buffer, returning the mutated context and the output buffer. -/
def RunStep (ops : MathOps) (animRatio : ℚ) (animId : ℕ) (anim : Animation)
    (ctx : Context) (output : ℕ → SoaTransform) : Context × (ℕ → SoaTransform) :=
  let ctx1 := ContextStep ctx animId animRatio
  let tSt := UpdateCacheCursor animRatio anim.numSoaTracks anim.translations
    ctx1.translationState
  let tUk := UpdateInterpKeyframes anim.numSoaTracks anim.translations tSt.cache
    tSt.outdated ctx1.soaTranslations (DecompressFloat3 ops)
  let rSt := UpdateCacheCursor animRatio anim.numSoaTracks anim.rotations
    ctx1.rotationState
  let rUk := UpdateInterpKeyframes anim.numSoaTracks anim.rotations rSt.cache
    rSt.outdated ctx1.soaRotations (DecompressQuaternion ops)
  let sSt := UpdateCacheCursor animRatio anim.numSoaTracks anim.scales
    ctx1.scaleState
  let sUk := UpdateInterpKeyframes anim.numSoaTracks anim.scales sSt.cache
    sSt.outdated ctx1.soaScales (DecompressFloat3 ops)
  let output' := Interpolates ops animRatio anim.numSoaTracks tUk.2 rUk.2 sUk.2 output
  ({ ctx1 with
      translationState := ⟨tSt.cursor, tSt.cache, tUk.1⟩,
      rotationState := ⟨rSt.cursor, rSt.cache, rUk.1⟩,
      scaleState := ⟨sSt.cursor, sSt.cache, sUk.1⟩,
      soaTranslations := tUk.2,
      soaRotations := rUk.2,
      soaScales := sUk.2 },
   output')

/-- Embeds `SamplingJob::Run`: validates, returns success immediately on a
clip without joints, otherwise clamps the ratio to [0, 1] and takes the
success path `RunStep`.  The returned triple carries the success flag, the
mutated context and the output buffer. -/
def SamplingJob.Run (ops : MathOps) (job : SamplingJob) (output : ℕ → SoaTransform) :
    Bool × Option Context × (ℕ → SoaTransform) :=
  if SamplingJob.Validate job = true then
    match job.animation, job.context with
    | some (animId, anim), some ctx =>
      if anim.numSoaTracks = 0 then (true, some ctx, output)
      else
        let res := RunStep ops (clampQ 0 job.ratio 1) animId anim ctx output
        (true, some res.1, res.2)
    | _, _ => (false, job.context, output)
  else (false, job.context, output)

/-- Greatest stream position strictly below `c` owned by track `t` according
to the ownership map `trk` (0 when no such position exists). -/
def lastBelow (trk : ℕ → ℕ) (t c : ℕ) : ℕ :=
  Nat.findGreatest (fun p => trk p = t) (c - 1)

/-- Validity of one compressed channel stream for `n` tracks with ownership
map `trk`: at least the `2*n` seeding entries are present; ownership stays
in range; the first `2*n` entries hold each track's first two keyframes
interleaved by track (position `i` belongs to track `i % n`); first
keyframes are at ratio 0; back-distances point to the previous keyframe of
the same track; entries past the seeds are sorted by the ratio of their
predecessor keyframe (the needed-time order the compressed stream uses);
and every track's final keyframe is at ratio at least 1. -/
def ValidStream {κ : Type} [Inhabited κ] [TrackKey κ] (trk : ℕ → ℕ) (n : ℕ)
    (keys : List κ) : Prop :=
  4 ≤ n ∧
  2 * n ≤ keys.length ∧
  (∀ p, p < keys.length → trk p < n) ∧
  (∀ p, p < 2 * n → trk p = p % n) ∧
  (∀ p, p < n → kratio keys p = 0) ∧
  (∀ p, p < keys.length → n ≤ p →
    0 < kprev keys p ∧ kprev keys p ≤ p ∧ trk (p - kprev keys p) = trk p ∧
    (∀ q, q < p → p - kprev keys p < q → trk q ≠ trk p)) ∧
  (∀ p, p < keys.length → 2 * n ≤ p → ∀ q, q < keys.length → p ≤ q →
    predRatio keys p ≤ predRatio keys q) ∧
  (∀ p, p < keys.length → (∀ q, q < keys.length → p < q → trk q ≠ trk p) →
    1 ≤ kratio keys p)

/-- Invariant tying a bracket cache to a cursor position `c`: for every track
`t`, the cached last entry is the greatest stream position of `t` below `c`
and the cached penultimate entry is the one before that. -/
def CacheInv {κ : Type} [Inhabited κ] [TrackKey κ] (trk : ℕ → ℕ) (keys : List κ)
    (n c : ℕ) (cache : ℕ → ℕ) : Prop :=
  2 * n ≤ c ∧ c ≤ keys.length ∧
  ∀ t, t < n → cache (t + n) = lastBelow trk t c ∧
    cache t = lastBelow trk t (lastBelow trk t c)

/-- Stopping characterisation of `UpdateCacheCursor`: the cursor sits right
after the maximal prefix of entries whose predecessor ratio is at most the
query ratio. -/
def StopAt {κ : Type} [Inhabited κ] [TrackKey κ] (keys : List κ) (n : ℕ) (r : ℚ)
    (c : ℕ) : Prop :=
  2 * n ≤ c ∧ c ≤ keys.length ∧
  (c = keys.length ∨ r < predRatio keys c) ∧ predRatio keys (c - 1) ≤ r

/-- Bookkeeping relation between a loop's input cache and outdated flags and
its resulting state: flags only ever get set, any bracket entry that changed
has its group flagged, entries outside the bracket windows are untouched and
only flags of valid groups change. -/
def CacheDelta (n : ℕ) (cache : ℕ → ℕ) (od : ℕ → Bool) (res : ScanState) : Prop :=
  (∀ g, od g = true → res.outdated g = true) ∧
  (∀ i, i < 2 * n → res.cache i ≠ cache i → res.outdated ((i % n) / 4) = true) ∧
  (∀ i, 2 * n ≤ i → res.cache i = cache i) ∧
  (∀ g, res.outdated g ≠ od g → 4 * g < n)

/-- Bookkeeping relation between the channel state a cursor update starts
from and the state it produces (same clauses as `CacheDelta`). -/
def ChannelDelta (n : ℕ) (st st' : ChannelState) : Prop :=
  (∀ g, st.outdated g = true → st'.outdated g = true) ∧
  (∀ i, i < 2 * n → st'.cache i ≠ st.cache i → st'.outdated ((i % n) / 4) = true) ∧
  (∀ i, 2 * n ≤ i → st'.cache i = st.cache i) ∧
  (∀ g, st'.outdated g ≠ st.outdated g → 4 * g < n)

/-- Validity of a channel stream as claim C1 words it: the keyframes are
time-sorted (ascending ratio across the whole merged stream), back-distances
are correct and the first `2*n` entries seed each track.  Stated separately
from `ValidStream` in order to test the claim's wording; it even includes
the ratio-0 first keyframes and the ratio-≥1 final keyframes, so a failure
cannot be blamed on missing end keys. -/
def TimeSortedValid {κ : Type} [Inhabited κ] [TrackKey κ] (trk : ℕ → ℕ) (n : ℕ)
    (keys : List κ) : Prop :=
  4 ≤ n ∧
  2 * n ≤ keys.length ∧
  (∀ p, p < keys.length → trk p < n) ∧
  (∀ p, p < 2 * n → trk p = p % n) ∧
  (∀ p, p < n → kratio keys p = 0) ∧
  (∀ p, p < keys.length → n ≤ p →
    0 < kprev keys p ∧ kprev keys p ≤ p ∧ trk (p - kprev keys p) = trk p ∧
    (∀ q, q < p → p - kprev keys p < q → trk q ≠ trk p)) ∧
  (∀ p, p < keys.length → ∀ q, q < keys.length → p ≤ q →
    kratio keys p ≤ kratio keys q) ∧
  (∀ p, p < keys.length → (∀ q, q < keys.length → p < q → trk q ≠ trk p) →
    1 ≤ kratio keys p)

/-- Four tracks, three keyframes each (ratios 0, 1/4, 1); stream sorted both
by ratio and by predecessor ratio; back-distances all 4 past the seeds. -/
def exKeys : List Float3Key :=
  [⟨0, 0, fun _ => 0⟩, ⟨0, 0, fun _ => 0⟩, ⟨0, 0, fun _ => 0⟩, ⟨0, 0, fun _ => 0⟩,
   ⟨mkRat 1 4, 4, fun _ => 0⟩, ⟨mkRat 1 4, 4, fun _ => 0⟩,
   ⟨mkRat 1 4, 4, fun _ => 0⟩, ⟨mkRat 1 4, 4, fun _ => 0⟩,
   ⟨1, 4, fun _ => 0⟩, ⟨1, 4, fun _ => 0⟩, ⟨1, 4, fun _ => 0⟩, ⟨1, 4, fun _ => 0⟩]

/-- Track ownership map of `exKeys`. -/
def exTrk : ℕ → ℕ := fun p => p % 4

/-- Channel state before any sampling: null cursor, arbitrary cache. -/
def exFresh : ChannelState := ⟨0, fun _ => 0, fun _ => false⟩

/-- Four tracks with second keyframes at ratios 1/5, 3/10, 2/5, 9/20, one
extra keyframe of track 0 at ratio 11/20 and final keyframes at ratio 1 for
every track, merged in globally ascending ratio order (the order claim C1
asserts) with correct back-distances and seeding. -/
def cxKeys : List Float3Key :=
  [⟨0, 0, fun _ => 0⟩, ⟨0, 0, fun _ => 0⟩, ⟨0, 0, fun _ => 0⟩, ⟨0, 0, fun _ => 0⟩,
   ⟨mkRat 1 5, 4, fun _ => 0⟩, ⟨mkRat 3 10, 4, fun _ => 0⟩,
   ⟨mkRat 2 5, 4, fun _ => 0⟩, ⟨mkRat 9 20, 4, fun _ => 0⟩,
   ⟨mkRat 11 20, 4, fun _ => 0⟩,
   ⟨1, 1, fun _ => 0⟩, ⟨1, 5, fun _ => 0⟩, ⟨1, 5, fun _ => 0⟩, ⟨1, 5, fun _ => 0⟩]

/-- Track ownership map of `cxKeys`. -/
def cxTrk : ℕ → ℕ := fun p => [0, 1, 2, 3, 0, 1, 2, 3, 0, 0, 1, 2, 3].getD p 0

instance {κ : Type} [Inhabited κ] [TrackKey κ] (trk : ℕ → ℕ) (n : ℕ) (keys : List κ) :
    Decidable (ValidStream trk n keys) := by
  unfold ValidStream
  exact @instDecidableAnd _ _ inferInstance
    (@instDecidableAnd _ _ inferInstance
      (@instDecidableAnd _ _ inferInstance
        (@instDecidableAnd _ _ inferInstance
          (@instDecidableAnd _ _ inferInstance
            (@instDecidableAnd _ _ inferInstance
              (@instDecidableAnd _ _ inferInstance inferInstance))))))

instance {κ : Type} [Inhabited κ] [TrackKey κ] (trk : ℕ → ℕ) (n : ℕ) (keys : List κ) :
    Decidable (TimeSortedValid trk n keys) := by
  unfold TimeSortedValid
  exact @instDecidableAnd _ _ inferInstance
    (@instDecidableAnd _ _ inferInstance
      (@instDecidableAnd _ _ inferInstance
        (@instDecidableAnd _ _ inferInstance
          (@instDecidableAnd _ _ inferInstance
            (@instDecidableAnd _ _ inferInstance
              (@instDecidableAnd _ _ inferInstance inferInstance))))))

instance {κ : Type} [Inhabited κ] [TrackKey κ] (trk : ℕ → ℕ) (keys : List κ)
    (n c : ℕ) (cache : ℕ → ℕ) : Decidable (CacheInv trk keys n c cache) := by
  unfold CacheInv
  exact inferInstance

/-- Seed-state bracket cache of `exKeys` after initialization. -/
def c4Cache : ℕ → ℕ := fun i => if i < 8 then i else 0

/-- Neutral interpolation operand values used for freshly allocated contexts
in concrete examples (the C++ allocation leaves them uninitialized). -/
def junkF3 : InterpEntry SoaFloat3 :=
  ⟨fun _ => 0, ⟨fun _ => 0, fun _ => 0, fun _ => 0⟩,
   fun _ => 0, ⟨fun _ => 0, fun _ => 0, fun _ => 0⟩⟩

/-- Neutral rotation operand values for concrete examples. -/
def junkQ : InterpEntry SoaQuaternion :=
  ⟨fun _ => 0, ⟨fun _ => 0, fun _ => 0, fun _ => 0, fun _ => 0⟩,
   fun _ => 0, ⟨fun _ => 0, fun _ => 0, fun _ => 0, fun _ => 0⟩⟩

/-- Neutral output transform for concrete examples. -/
def junkT : SoaTransform :=
  ⟨⟨fun _ => 0, fun _ => 0, fun _ => 0⟩,
   ⟨fun _ => 0, fun _ => 0, fun _ => 0, fun _ => 0⟩,
   ⟨fun _ => 0, fun _ => 0, fun _ => 0⟩⟩

/-- Neutral output buffer for concrete examples. -/
def junkOut : ℕ → SoaTransform := fun _ => junkT

/-- Trivial instantiation of the external maths helpers for concrete
examples (the theorems hold for every instantiation). -/
def junkOps : MathOps := ⟨fun _ => 0, fun _ => 0, fun _ => 0, 0⟩

/-- Context sized for one track group with warm channel cursors at 7, last
ratio 3/4, last animation identity 0. -/
def cxContext : Context :=
  { maxSoaTracks := 1,
    lastAnimation := some 0,
    lastRatio := mkRat 3 4,
    translationState := ⟨7, fun _ => 0, fun _ => false⟩,
    rotationState := ⟨7, fun _ => 0, fun _ => false⟩,
    scaleState := ⟨7, fun _ => 0, fun _ => false⟩,
    soaTranslations := fun _ => junkF3,
    soaRotations := fun _ => junkQ,
    soaScales := fun _ => junkF3 }

/-- Clip with no track groups (and empty channel streams). -/
def cxAnim0 : Animation := ⟨0, [], [], []⟩

/-- Zero-capacity invalidated context. -/
def cxCtx0 : Context :=
  ⟨0, none, 0, ⟨0, fun _ => 0, fun _ => false⟩, ⟨0, fun _ => 0, fun _ => false⟩,
   ⟨0, fun _ => 0, fun _ => false⟩, fun _ => junkF3, fun _ => junkQ, fun _ => junkF3⟩

/-- Job over `cxAnim0` and `cxCtx0` with an empty output buffer. -/
def cxJob0 : SamplingJob := ⟨0, some (0, cxAnim0), some cxCtx0, 0⟩

/-- Rotation stream mirroring `exKeys`: four tracks, three keyframes each
(ratios 0, 1/4, 1), identity-like quantized payloads, back-distances all 4
past the seeds. -/
def exQKeys : List QuaternionKey :=
  [⟨0, 0, 0, false, fun _ => 0⟩, ⟨0, 0, 0, false, fun _ => 0⟩,
   ⟨0, 0, 0, false, fun _ => 0⟩, ⟨0, 0, 0, false, fun _ => 0⟩,
   ⟨mkRat 1 4, 4, 0, false, fun _ => 0⟩, ⟨mkRat 1 4, 4, 0, false, fun _ => 0⟩,
   ⟨mkRat 1 4, 4, 0, false, fun _ => 0⟩, ⟨mkRat 1 4, 4, 0, false, fun _ => 0⟩,
   ⟨1, 4, 0, false, fun _ => 0⟩, ⟨1, 4, 0, false, fun _ => 0⟩,
   ⟨1, 4, 0, false, fun _ => 0⟩, ⟨1, 4, 0, false, fun _ => 0⟩]

/-- One-group clip using `exKeys` for translations and scales and `exQKeys`
for rotations. -/
def wAnim : Animation := ⟨1, exKeys, exQKeys, exKeys⟩

/-- Freshly allocated context of capacity one: null cursors, arbitrary cache
and operand contents. -/
def wCtx : Context :=
  ⟨1, none, 0, ⟨0, fun _ => 0, fun _ => false⟩, ⟨0, fun _ => 0, fun _ => false⟩,
   ⟨0, fun _ => 0, fun _ => false⟩, fun _ => junkF3, fun _ => junkQ, fun _ => junkF3⟩

theorem lastBelow_le {trk : ℕ → ℕ} {t c : ℕ} : lastBelow trk t c ≤ c - 1 :=
  Nat.findGreatest_le _

theorem lastBelow_eq (trk : ℕ → ℕ) {t c p : ℕ} (hp : p < c) (hpt : trk p = t)
    (hmax : ∀ q, q < c → trk q = t → q ≤ p) : lastBelow trk t c = p := by
  have hc : 0 < c := Nat.lt_of_le_of_lt (Nat.zero_le p) hp
  have h1 : p ≤ c - 1 := Nat.le_pred_of_lt hp
  have h2 : p ≤ lastBelow trk t c := Nat.le_findGreatest h1 hpt
  have h3 : trk (lastBelow trk t c) = t :=
    Nat.findGreatest_spec (P := fun q => trk q = t) h1 hpt
  have h4 : lastBelow trk t c < c :=
    lt_of_le_of_lt (Nat.findGreatest_le _) (Nat.sub_lt hc Nat.one_pos)
  exact le_antisymm (hmax _ h4 h3) h2

theorem lastBelow_mem (trk : ℕ → ℕ) {t c p0 : ℕ} (hp0 : p0 < c) (ht0 : trk p0 = t) :
    trk (lastBelow trk t c) = t ∧ p0 ≤ lastBelow trk t c ∧ lastBelow trk t c < c := by
  have hc : 0 < c := Nat.lt_of_le_of_lt (Nat.zero_le p0) hp0
  have h1 : p0 ≤ c - 1 := Nat.le_pred_of_lt hp0
  exact ⟨Nat.findGreatest_spec (P := fun q => trk q = t) h1 ht0,
    Nat.le_findGreatest h1 ht0,
    lt_of_le_of_lt (Nat.findGreatest_le _) (Nat.sub_lt hc Nat.one_pos)⟩

theorem lastBelow_succ (trk : ℕ → ℕ) (t c : ℕ) :
    lastBelow trk t (c + 1) = if trk c = t then c else lastBelow trk t c := by
  cases c with
  | zero =>
    simp only [lastBelow, Nat.zero_sub, Nat.add_sub_cancel, Nat.findGreatest_zero]
    split <;> simp [Nat.findGreatest_zero]
  | succ m =>
    simp only [lastBelow, Nat.add_sub_cancel, Nat.succ_sub_one]
    exact Nat.findGreatest_succ m

theorem seed_trk_mod {trk : ℕ → ℕ} {n : ℕ} (hseed : ∀ p, p < 2 * n → trk p = p % n)
    {t : ℕ} (ht : t < n) : trk (n + t) = t := by
  have h1 : n + t < 2 * n := by omega
  rw [hseed _ h1, Nat.add_comm, Nat.add_mod_right, Nat.mod_eq_of_lt ht]

theorem lastBelow_seed_last {trk : ℕ → ℕ} {n : ℕ}
    (hseed : ∀ p, p < 2 * n → trk p = p % n) {t : ℕ} (ht : t < n) :
    lastBelow trk t (2 * n) = n + t := by
  refine lastBelow_eq trk (by omega) (seed_trk_mod hseed ht) ?_
  intro q hq hqt
  rw [hseed _ hq] at hqt
  rcases Nat.lt_or_ge q n with h | h
  · rw [Nat.mod_eq_of_lt h] at hqt; omega
  · have hsub : q % n = q - n := by
      rw [Nat.mod_eq_sub_mod h, Nat.mod_eq_of_lt (by omega)]
    omega

theorem lastBelow_seed_pen {trk : ℕ → ℕ} {n : ℕ}
    (hseed : ∀ p, p < 2 * n → trk p = p % n) {t : ℕ} (ht : t < n) :
    lastBelow trk t (n + t) = t := by
  refine lastBelow_eq trk (by omega) ?_ ?_
  · rw [hseed _ (by omega), Nat.mod_eq_of_lt ht]
  · intro q hq hqt
    rw [hseed _ (by omega)] at hqt
    rcases Nat.lt_or_ge q n with h | h
    · rw [Nat.mod_eq_of_lt h] at hqt; omega
    · have hsub : q % n = q - n := by
        rw [Nat.mod_eq_sub_mod h, Nat.mod_eq_of_lt (by omega)]
      omega

theorem find_unique {α : Type} {p : α → Bool} {l : List α} {a : α} (ha : a ∈ l)
    (hpa : p a = true) (huniq : ∀ b, b ∈ l → p b = true → b = a) :
    l.find? p = some a := by
  induction l with
  | nil => cases ha
  | cons x xs ih =>
    by_cases hx : p x = true
    · have hxa : x = a := huniq x (List.mem_cons_self x xs) hx
      subst hxa
      exact List.find?_cons_of_pos _ hx
    · have hxa : x ≠ a := fun h => hx (h ▸ hpa)
      have ha' : a ∈ xs := by
        rcases List.mem_cons.mp ha with h | h
        · exact absurd h.symm hxa
        · exact h
      rw [List.find?_cons_of_neg _ (by simpa using hx)]
      exact ih ha' (fun b hb hpb => huniq b (List.mem_cons_of_mem _ hb) hpb)

theorem TrackForward_eq {κ : Type} [Inhabited κ] [TrackKey κ] (cache : ℕ → ℕ)
    (keys : List κ) {key lastTrack n e0 : ℕ} (hlt : lastTrack < n)
    (he0 : n ≤ e0) (he0' : e0 < 2 * n)
    (hc : cache e0 = key - kprev keys key)
    (huniq : ∀ e, n ≤ e → e < 2 * n → cache e = key - kprev keys key → e = e0) :
    TrackForward cache keys key lastTrack n = e0 - n := by
  simp only [TrackForward]
  rcases Nat.lt_or_ge e0 (lastTrack + n) with hcase | hcase
  · have h1 : (List.range' (lastTrack + n) (n - lastTrack)).find?
        (fun e => cache e == key - kprev keys key) = none := by
      rw [List.find?_eq_none]
      intro x hx hpx
      have hx' := List.mem_range'_1.mp hx
      have hxe : x = e0 := huniq x (by omega) (by omega) (by simpa using hpx)
      omega
    have h2 : (List.range' n n).find? (fun e => cache e == key - kprev keys key)
        = some e0 := by
      refine find_unique ?_ (by simpa using hc) ?_
      · exact List.mem_range'_1.mpr ⟨he0, by omega⟩
      · intro b hb hpb
        have hb' := List.mem_range'_1.mp hb
        exact huniq b (by omega) (by omega) (by simpa using hpb)
    rw [h1, h2]
  · have h1 : (List.range' (lastTrack + n) (n - lastTrack)).find?
        (fun e => cache e == key - kprev keys key) = some e0 := by
      refine find_unique ?_ (by simpa using hc) ?_
      · exact List.mem_range'_1.mpr ⟨hcase, by omega⟩
      · intro b hb hpb
        have hb' := List.mem_range'_1.mp hb
        exact huniq b (by omega) (by omega) (by simpa using hpb)
    rw [h1]

theorem TrackBackward_eq (cache : ℕ → ℕ) {target lastTrack n e0 : ℕ}
    (hlt : lastTrack < n) (he0 : n ≤ e0) (he0' : e0 < 2 * n)
    (hc : cache e0 = target)
    (huniq : ∀ e, n ≤ e → e < 2 * n → cache e = target → e = e0) :
    TrackBackward cache target lastTrack n = e0 - n := by
  simp only [TrackBackward]
  rcases Nat.lt_or_ge (lastTrack + n) e0 with hcase | hcase
  · have h1 : ((List.range' n (lastTrack + 1)).reverse).find?
        (fun e => cache e == target) = none := by
      rw [List.find?_eq_none]
      intro x hx hpx
      have hx' := List.mem_range'_1.mp (List.mem_reverse.mp hx)
      have hxe : x = e0 := huniq x (by omega) (by omega) (by simpa using hpx)
      omega
    have h2 : ((List.range' n n).reverse).find? (fun e => cache e == target)
        = some e0 := by
      refine find_unique ?_ (by simpa using hc) ?_
      · exact List.mem_reverse.mpr (List.mem_range'_1.mpr ⟨he0, by omega⟩)
      · intro b hb hpb
        have hb' := List.mem_range'_1.mp (List.mem_reverse.mp hb)
        exact huniq b (by omega) (by omega) (by simpa using hpb)
    rw [h1, h2]
  · have h1 : ((List.range' n (lastTrack + 1)).reverse).find?
        (fun e => cache e == target) = some e0 := by
      refine find_unique ?_ (by simpa using hc) ?_
      · exact List.mem_reverse.mpr (List.mem_range'_1.mpr ⟨he0, by omega⟩)
      · intro b hb hpb
        have hb' := List.mem_range'_1.mp (List.mem_reverse.mp hb)
        exact huniq b (by omega) (by omega) (by simpa using hpb)
    rw [h1]

theorem cache_entry_eq {κ : Type} [Inhabited κ] [TrackKey κ] {trk : ℕ → ℕ}
    {keys : List κ} {n c : ℕ} {cache : ℕ → ℕ} (hInv : CacheInv trk keys n c cache)
    {e : ℕ} (he : n ≤ e) (he' : e < 2 * n) :
    cache e = lastBelow trk (e - n) c := by
  have h := (hInv.2.2 (e - n) (by omega)).1
  rwa [show e - n + n = e by omega] at h

theorem target_eq_lastBelow {κ : Type} [Inhabited κ] [TrackKey κ] {trk : ℕ → ℕ}
    {n : ℕ} {keys : List κ}
    (hback : ∀ p, p < keys.length → n ≤ p →
      0 < kprev keys p ∧ kprev keys p ≤ p ∧ trk (p - kprev keys p) = trk p ∧
      (∀ q, q < p → p - kprev keys p < q → trk q ≠ trk p))
    {p : ℕ} (hp : p < keys.length) (hnp : n ≤ p) :
    p - kprev keys p = lastBelow trk (trk p) p := by
  obtain ⟨h0, h1, h2, h3⟩ := hback p hp hnp
  refine (lastBelow_eq trk (by omega) h2 ?_).symm
  intro q hq hqt
  by_contra hlt
  exact h3 q hq (by omega) hqt

theorem lastBelow_seeded {trk : ℕ → ℕ} {n t c : ℕ}
    (hseed : ∀ p, p < 2 * n → trk p = p % n) (ht : t < n) (hc : 2 * n ≤ c) :
    trk (lastBelow trk t c) = t ∧ n + t ≤ lastBelow trk t c ∧ lastBelow trk t c < c :=
  lastBelow_mem trk (show n + t < c by omega) (seed_trk_mod hseed ht)

theorem cache_target_unique {κ : Type} [Inhabited κ] [TrackKey κ] {trk : ℕ → ℕ}
    {keys : List κ} {n c : ℕ} {cache : ℕ → ℕ}
    (hseed : ∀ p, p < 2 * n → trk p = p % n)
    (hInv : CacheInv trk keys n c cache) {t0 : ℕ} (ht0 : t0 < n) :
    ∀ e, n ≤ e → e < 2 * n → cache e = lastBelow trk t0 c → e = t0 + n := by
  intro e he he' hce
  have h2n : 2 * n ≤ c := hInv.1
  have hc1 : cache e = lastBelow trk (e - n) c := cache_entry_eq hInv he he'
  have hm1 := lastBelow_seeded hseed (show e - n < n by omega) h2n
  have hm2 := lastBelow_seeded hseed ht0 h2n
  have heq : lastBelow trk (e - n) c = lastBelow trk t0 c := hc1.symm.trans hce
  have : e - n = t0 := by rw [← hm1.1, heq, hm2.1]
  omega

theorem forward_consume {κ : Type} [Inhabited κ] [TrackKey κ] {trk : ℕ → ℕ}
    {keys : List κ} {n : ℕ}
    (hseed : ∀ p, p < 2 * n → trk p = p % n)
    (htrk : ∀ p, p < keys.length → trk p < n)
    (hback : ∀ p, p < keys.length → n ≤ p →
      0 < kprev keys p ∧ kprev keys p ≤ p ∧ trk (p - kprev keys p) = trk p ∧
      (∀ q, q < p → p - kprev keys p < q → trk q ≠ trk p))
    {c : ℕ} {cache : ℕ → ℕ} (hInv : CacheInv trk keys n c cache)
    (hc : c < keys.length) {track : ℕ} (htr : track < n) :
    TrackForward cache keys c track n = trk c ∧
    CacheInv trk keys n (c + 1)
      (Function.update (Function.update cache (trk c) (cache (trk c + n)))
        (trk c + n) c) := by
  have h2n : 2 * n ≤ c := hInv.1
  have htc : trk c < n := htrk c hc
  have htarget : c - kprev keys c = lastBelow trk (trk c) c :=
    target_eq_lastBelow hback hc (by omega)
  have hce : cache (trk c + n) = lastBelow trk (trk c) c := (hInv.2.2 (trk c) htc).1
  have huniq : ∀ e, n ≤ e → e < 2 * n → cache e = c - kprev keys c → e = trk c + n := by
    intro e he he' h
    exact cache_target_unique hseed hInv htc e he he' (h.trans htarget)
  have htf0 : TrackForward cache keys c track n = trk c + n - n :=
    TrackForward_eq cache keys htr (by omega) (by omega) (hce.trans htarget.symm) huniq
  have htf : TrackForward cache keys c track n = trk c := by simpa using htf0
  refine ⟨htf, by omega, by omega, ?_⟩
  intro t ht
  rcases eq_or_ne t (trk c) with rfl | hne
  · constructor
    · rw [Function.update_same, lastBelow_succ, if_pos rfl]
    · rw [Function.update_noteq (by omega : trk c ≠ trk c + n), Function.update_same,
        lastBelow_succ, if_pos rfl, hce]
  · constructor
    · rw [Function.update_noteq (by omega : t + n ≠ trk c + n),
        Function.update_noteq (by omega : t + n ≠ trk c),
        lastBelow_succ, if_neg (by omega : ¬ trk c = t)]
      exact (hInv.2.2 t ht).1
    · rw [Function.update_noteq (by omega : t ≠ trk c + n),
        Function.update_noteq hne,
        lastBelow_succ, if_neg (by omega : ¬ trk c = t)]
      exact (hInv.2.2 t ht).2

theorem rewind_consume {κ : Type} [Inhabited κ] [TrackKey κ] {trk : ℕ → ℕ}
    {keys : List κ} {n : ℕ}
    (hseed : ∀ p, p < 2 * n → trk p = p % n)
    (htrk : ∀ p, p < keys.length → trk p < n)
    (hback : ∀ p, p < keys.length → n ≤ p →
      0 < kprev keys p ∧ kprev keys p ≤ p ∧ trk (p - kprev keys p) = trk p ∧
      (∀ q, q < p → p - kprev keys p < q → trk q ≠ trk p))
    {c : ℕ} {cache : ℕ → ℕ} (hInv : CacheInv trk keys n (c + 1) cache)
    (hc2n : 2 * n ≤ c) {track : ℕ} (htr : track < n) :
    TrackBackward cache c track n = trk c ∧
    CacheInv trk keys n c
      (Function.update (Function.update cache (trk c + n) (cache (trk c)))
        (trk c) (cache (trk c) - kprev keys (cache (trk c)))) := by
  have hcK : c < keys.length := by have := hInv.2.1; omega
  have htc : trk c < n := htrk c hcK
  have hlast : cache (trk c + n) = c := by
    rw [(hInv.2.2 (trk c) htc).1, lastBelow_succ, if_pos rfl]
  have huniq : ∀ e, n ≤ e → e < 2 * n → cache e = c → e = trk c + n := by
    intro e he he' h
    refine cache_target_unique hseed hInv htc e he he' ?_
    rw [h, lastBelow_succ, if_pos rfl]
  have htb0 : TrackBackward cache c track n = trk c + n - n :=
    TrackBackward_eq cache htr (by omega) (by omega) hlast huniq
  have htb : TrackBackward cache c track n = trk c := by simpa using htb0
  have hpen : cache (trk c) = lastBelow trk (trk c) c := by
    have := (hInv.2.2 (trk c) htc).2
    rwa [lastBelow_succ, if_pos rfl] at this
  have hmem := lastBelow_seeded hseed htc (show 2 * n ≤ c from hc2n)
  have hbn : n ≤ cache (trk c) := by rw [hpen]; omega
  have hbK : cache (trk c) < keys.length := by
    rw [hpen]; exact lt_of_lt_of_le hmem.2.2 (by omega)
  have htrb : trk (cache (trk c)) = trk c := by rw [hpen]; exact hmem.1
  have hbtarget : cache (trk c) - kprev keys (cache (trk c)) =
      lastBelow trk (trk c) (lastBelow trk (trk c) c) := by
    have h9 : cache (trk c) - kprev keys (cache (trk c)) =
        lastBelow trk (trk (cache (trk c))) (cache (trk c)) :=
      target_eq_lastBelow hback hbK hbn
    rw [htrb] at h9
    rw [h9, hpen]
  refine ⟨htb, by omega, by omega, ?_⟩
  intro t ht
  rcases eq_or_ne t (trk c) with rfl | hne
  · constructor
    · rw [Function.update_noteq (by omega : trk c + n ≠ trk c), Function.update_same, hpen]
    · rw [Function.update_same, hbtarget]
  · constructor
    · rw [Function.update_noteq (by omega : t + n ≠ trk c),
        Function.update_noteq (by omega : t + n ≠ trk c + n)]
      have := (hInv.2.2 t ht).1
      rwa [lastBelow_succ, if_neg (by omega : ¬ trk c = t)] at this
    · rw [Function.update_noteq hne,
        Function.update_noteq (by omega : t ≠ trk c + n)]
      have := (hInv.2.2 t ht).2
      rwa [lastBelow_succ, if_neg (by omega : ¬ trk c = t)] at this

theorem CacheDelta_refl {n : ℕ} (cache : ℕ → ℕ) (od : ℕ → Bool) (cur tr : ℕ) :
    CacheDelta n cache od ⟨cur, tr, cache, od⟩ :=
  ⟨fun _ h => h, fun _ _ h => absurd rfl h, fun _ _ => rfl, fun _ h => absurd rfl h⟩

theorem CacheDelta_comp {n : ℕ} {cache : ℕ → ℕ} {od : ℕ → Bool} {s1 res : ScanState}
    (h1 : CacheDelta n cache od s1)
    (h2 : CacheDelta n s1.cache s1.outdated res) :
    CacheDelta n cache od res := by
  obtain ⟨m1, d1, b1, g1⟩ := h1
  obtain ⟨m2, d2, b2, g2⟩ := h2
  refine ⟨fun g hg => m2 g (m1 g hg), ?_, fun i hi => (b2 i hi).trans (b1 i hi), ?_⟩
  · intro i hi hne
    by_cases hmid : res.cache i = s1.cache i
    · exact m2 _ (d1 i hi (fun h => hne (hmid.trans h)))
    · exact d2 i hi hmid
  · intro g hg
    by_cases h : s1.outdated g = od g
    · exact g2 g (fun hh => hg (hh.trans h))
    · exact g1 g h

theorem CacheDelta_two_updates {n : ℕ} (cache : ℕ → ℕ) (od : ℕ → Bool) {t : ℕ}
    (ht : t < n) {c₂ : ℕ → ℕ} (hc₂ : ∀ i, i ≠ t → i ≠ t + n → c₂ i = cache i)
    (cur tr : ℕ) :
    CacheDelta n cache od ⟨cur, tr, c₂, Function.update od (t / 4) true⟩ := by
  refine ⟨?_, ?_, ?_, ?_⟩
  · intro g hg
    rcases eq_or_ne g (t / 4) with rfl | hne
    · simp [Function.update_same]
    · simpa [Function.update_noteq hne] using hg
  · intro i hi hne
    have hit : i = t ∨ i = t + n := by
      by_contra h
      push_neg at h
      exact hne (hc₂ i h.1 h.2)
    have hgr : (i % n) / 4 = t / 4 := by
      rcases hit with rfl | rfl
      · rw [Nat.mod_eq_of_lt ht]
      · rw [Nat.add_mod_right, Nat.mod_eq_of_lt ht]
    show Function.update od (t / 4) true ((i % n) / 4) = true
    rw [hgr]
    exact Function.update_same _ _ _
  · intro i hi
    exact hc₂ i (by omega) (by omega)
  · intro g hg
    rcases eq_or_ne g (t / 4) with rfl | hne
    · omega
    · simp [Function.update_noteq hne] at hg

theorem CacheDelta_fstep {n : ℕ} (cache : ℕ → ℕ) (od : ℕ → Bool) {t : ℕ} (ht : t < n)
    (v w cur tr : ℕ) :
    CacheDelta n cache od ⟨cur, tr,
      Function.update (Function.update cache t v) (t + n) w,
      Function.update od (t / 4) true⟩ :=
  CacheDelta_two_updates cache od ht
    (fun _ h1 h2 => by rw [Function.update_noteq h2, Function.update_noteq h1]) cur tr

theorem CacheDelta_rstep {n : ℕ} (cache : ℕ → ℕ) (od : ℕ → Bool) {t : ℕ} (ht : t < n)
    (v w cur tr : ℕ) :
    CacheDelta n cache od ⟨cur, tr,
      Function.update (Function.update cache (t + n) v) t w,
      Function.update od (t / 4) true⟩ :=
  CacheDelta_two_updates cache od ht
    (fun _ h1 h2 => by rw [Function.update_noteq h1, Function.update_noteq h2]) cur tr

theorem ForwardLoop_step {κ : Type} [Inhabited κ] [TrackKey κ] (r : ℚ) (keys : List κ)
    (n fuel cursor track : ℕ) (cache : ℕ → ℕ) (od : ℕ → Bool)
    (hcond : cursor < keys.length ∧ predRatio keys cursor ≤ r) :
    ForwardLoop r keys n (fuel + 1) cursor track cache od =
      ForwardLoop r keys n fuel (cursor + 1) (TrackForward cache keys cursor track n)
        (Function.update (Function.update cache (TrackForward cache keys cursor track n)
          (cache (TrackForward cache keys cursor track n + n)))
          (TrackForward cache keys cursor track n + n) cursor)
        (Function.update od (TrackForward cache keys cursor track n / 4) true) := by
  rw [ForwardLoop, if_pos hcond]

theorem ForwardLoop_stop {κ : Type} [Inhabited κ] [TrackKey κ] (r : ℚ) (keys : List κ)
    (n fuel cursor track : ℕ) (cache : ℕ → ℕ) (od : ℕ → Bool)
    (hcond : ¬(cursor < keys.length ∧ predRatio keys cursor ≤ r)) :
    ForwardLoop r keys n (fuel + 1) cursor track cache od = ⟨cursor, track, cache, od⟩ := by
  rw [ForwardLoop, if_neg hcond]

theorem RewindLoop_step {κ : Type} [Inhabited κ] [TrackKey κ] (r : ℚ) (keys : List κ)
    (n c track : ℕ) (cache : ℕ → ℕ) (od : ℕ → Bool) (hcond : r < predRatio keys c) :
    RewindLoop r keys n (c + 1) track cache od =
      RewindLoop r keys n c (TrackBackward cache c track n)
        (Function.update (Function.update cache (TrackBackward cache c track n + n)
          (cache (TrackBackward cache c track n)))
          (TrackBackward cache c track n) (cache (TrackBackward cache c track n)
            - kprev keys (cache (TrackBackward cache c track n))))
        (Function.update od (TrackBackward cache c track n / 4) true) := by
  rw [RewindLoop, if_pos hcond]

theorem RewindLoop_stop {κ : Type} [Inhabited κ] [TrackKey κ] (r : ℚ) (keys : List κ)
    (n c track : ℕ) (cache : ℕ → ℕ) (od : ℕ → Bool) (hcond : ¬ r < predRatio keys c) :
    RewindLoop r keys n (c + 1) track cache od = ⟨c + 1, track, cache, od⟩ := by
  rw [RewindLoop, if_neg hcond]

theorem ForwardLoop_spec {κ : Type} [Inhabited κ] [TrackKey κ] {trk : ℕ → ℕ}
    {keys : List κ} {n : ℕ} {r : ℚ}
    (hseed : ∀ p, p < 2 * n → trk p = p % n)
    (htrk : ∀ p, p < keys.length → trk p < n)
    (hback : ∀ p, p < keys.length → n ≤ p →
      0 < kprev keys p ∧ kprev keys p ≤ p ∧ trk (p - kprev keys p) = trk p ∧
      (∀ q, q < p → p - kprev keys p < q → trk q ≠ trk p)) :
    ∀ (fuel cursor track : ℕ) (cache : ℕ → ℕ) (od : ℕ → Bool),
      CacheInv trk keys n cursor cache → track < n → keys.length ≤ cursor + fuel →
      CacheInv trk keys n (ForwardLoop r keys n fuel cursor track cache od).cursor
        (ForwardLoop r keys n fuel cursor track cache od).cache ∧
      (ForwardLoop r keys n fuel cursor track cache od).track < n ∧
      CacheDelta n cache od (ForwardLoop r keys n fuel cursor track cache od) ∧
      cursor ≤ (ForwardLoop r keys n fuel cursor track cache od).cursor ∧
      (∀ p, cursor ≤ p → p < (ForwardLoop r keys n fuel cursor track cache od).cursor →
        predRatio keys p ≤ r) ∧
      ((ForwardLoop r keys n fuel cursor track cache od).cursor = keys.length ∨
        r < predRatio keys (ForwardLoop r keys n fuel cursor track cache od).cursor) := by
  intro fuel
  induction fuel with
  | zero =>
    intro cursor track cache od hInv htr hfuel
    have hK : cursor = keys.length := le_antisymm hInv.2.1 (by omega)
    rw [ForwardLoop]
    exact ⟨hInv, htr, CacheDelta_refl cache od cursor track, le_refl _,
      fun p hp hp' => absurd (hp.trans_lt hp') (lt_irrefl _), Or.inl hK⟩
  | succ fuel ih =>
    intro cursor track cache od hInv htr hfuel
    by_cases hcond : cursor < keys.length ∧ predRatio keys cursor ≤ r
    · obtain ⟨htf, hInv'⟩ := forward_consume hseed htrk hback hInv hcond.1 htr
      rw [ForwardLoop_step r keys n fuel cursor track cache od hcond, htf]
      obtain ⟨ih1, ih2, ih3, ih4, ih5, ih6⟩ :=
        ih (cursor + 1) (trk cursor) _ _ hInv' (htrk _ hcond.1) (by omega)
      refine ⟨ih1, ih2, ?_, by omega, ?_, ih6⟩
      · exact CacheDelta_comp
          (CacheDelta_fstep cache od (htrk _ hcond.1) (cache (trk cursor + n)) cursor 0 0) ih3
      · intro p hp hp'
        rcases eq_or_lt_of_le hp with rfl | h
        · exact hcond.2
        · exact ih5 p (by omega) hp'
    · rw [ForwardLoop_stop r keys n fuel cursor track cache od hcond]
      push_neg at hcond
      have hstop : cursor = keys.length ∨ r < predRatio keys cursor := by
        rcases Nat.lt_or_ge cursor keys.length with h | h
        · exact Or.inr (hcond h)
        · exact Or.inl (le_antisymm hInv.2.1 h)
      exact ⟨hInv, htr, CacheDelta_refl cache od cursor track, le_refl _,
        fun p hp hp' => absurd (hp.trans_lt hp') (lt_irrefl _), hstop⟩

theorem RewindLoop_spec {κ : Type} [Inhabited κ] [TrackKey κ] {trk : ℕ → ℕ}
    {keys : List κ} {n : ℕ} {r : ℚ} (hn : 4 ≤ n) (hr0 : 0 ≤ r)
    (hseed : ∀ p, p < 2 * n → trk p = p % n)
    (htrk : ∀ p, p < keys.length → trk p < n)
    (hzero : ∀ p, p < n → kratio keys p = 0)
    (hback : ∀ p, p < keys.length → n ≤ p →
      0 < kprev keys p ∧ kprev keys p ≤ p ∧ trk (p - kprev keys p) = trk p ∧
      (∀ q, q < p → p - kprev keys p < q → trk q ≠ trk p)) :
    ∀ (c : ℕ), ∀ (track : ℕ) (cache : ℕ → ℕ) (od : ℕ → Bool),
      CacheInv trk keys n c cache → track < n →
      CacheInv trk keys n (RewindLoop r keys n c track cache od).cursor
        (RewindLoop r keys n c track cache od).cache ∧
      (RewindLoop r keys n c track cache od).track < n ∧
      CacheDelta n cache od (RewindLoop r keys n c track cache od) ∧
      (RewindLoop r keys n c track cache od).cursor ≤ c ∧
      (∀ p, (RewindLoop r keys n c track cache od).cursor ≤ p → p < c →
        r < predRatio keys p) ∧
      predRatio keys ((RewindLoop r keys n c track cache od).cursor - 1) ≤ r := by
  intro c
  induction c with
  | zero =>
    intro track cache od hInv htr
    exact absurd hInv.1 (by omega)
  | succ c ih =>
    intro track cache od hInv htr
    by_cases hcond : r < predRatio keys c
    · have h2nc : 2 * n ≤ c := by
        by_contra hlt
        have hc : c = 2 * n - 1 := by have := hInv.1; omega
        have hcK : c < keys.length := by have := hInv.2.1; omega
        have htc : trk c = n - 1 := by
          rw [hseed c (by omega), hc]
          rw [show 2 * n - 1 = n + (n - 1) by omega, Nat.add_comm, Nat.add_mod_right,
            Nat.mod_eq_of_lt (by omega)]
        have htgt : c - kprev keys c = lastBelow trk (trk c) c :=
          target_eq_lastBelow hback hcK (by omega)
        have hlb : lastBelow trk (n - 1) c = n - 1 := by
          refine lastBelow_eq trk (by omega) ?_ ?_
          · rw [hseed (n - 1) (by omega), Nat.mod_eq_of_lt (by omega)]
          · intro q hq hqt
            rw [hseed q (by omega)] at hqt
            rcases Nat.lt_or_ge q n with h | h
            · rw [Nat.mod_eq_of_lt h] at hqt; omega
            · have hsub : q % n = q - n := by
                rw [Nat.mod_eq_sub_mod h, Nat.mod_eq_of_lt (by omega)]
              omega
        have hpred : predRatio keys c = 0 := by
          rw [predRatio, predTarget, htgt, htc, hlb]
          exact hzero (n - 1) (by omega)
        rw [hpred] at hcond
        exact absurd hcond (not_lt.mpr hr0)
      have hcK : c < keys.length := by have := hInv.2.1; omega
      obtain ⟨htb, hInv'⟩ := rewind_consume hseed htrk hback hInv h2nc htr
      rw [RewindLoop_step r keys n c track cache od hcond, htb]
      obtain ⟨ih1, ih2, ih3, ih4, ih5, ih6⟩ := ih (trk c) _ _ hInv' (htrk c hcK)
      refine ⟨ih1, ih2, ?_, by omega, ?_, ih6⟩
      · exact CacheDelta_comp
          (CacheDelta_rstep cache od (htrk c hcK) (cache (trk c))
            (cache (trk c) - kprev keys (cache (trk c))) 0 0) ih3
      · intro p hp hp'
        rcases Nat.lt_or_ge p c with h | h
        · exact ih5 p hp h
        · have : p = c := by omega
          subst this
          exact hcond
    · rw [RewindLoop_stop r keys n c track cache od hcond]
      refine ⟨hInv, htr, CacheDelta_refl cache od (c + 1) track, le_refl _,
        fun p hp hp' => absurd (hp.trans_lt hp') (lt_irrefl _), ?_⟩
      simpa using not_lt.mp hcond

theorem le_lastBelow (trk : ℕ → ℕ) {t c q : ℕ} (hq : q < c) (hqt : trk q = t) :
    q ≤ lastBelow trk t c :=
  Nat.le_findGreatest (Nat.le_pred_of_lt hq) hqt

theorem init_CacheInv {κ : Type} [Inhabited κ] [TrackKey κ] {trk : ℕ → ℕ}
    {keys : List κ} {n : ℕ} (hseed : ∀ p, p < 2 * n → trk p = p % n)
    (h2n : 2 * n ≤ keys.length) (old : ℕ → ℕ) :
    CacheInv trk keys n (n * 2) (fun i => if i < n * 2 then i else old i) := by
  refine ⟨by omega, by omega, ?_⟩
  intro t ht
  constructor
  · show (if t + n < n * 2 then t + n else old (t + n)) = lastBelow trk t (n * 2)
    rw [if_pos (by omega : t + n < n * 2), show n * 2 = 2 * n by omega,
      lastBelow_seed_last hseed ht]
    omega
  · show (if t < n * 2 then t else old t) =
      lastBelow trk t (lastBelow trk t (n * 2))
    rw [if_pos (by omega : t < n * 2), show n * 2 = 2 * n by omega,
      lastBelow_seed_last hseed ht, lastBelow_seed_pen hseed ht]

theorem StopAt_unique {κ : Type} [Inhabited κ] [TrackKey κ] {keys : List κ} {n : ℕ}
    {r : ℚ}
    (hsort : ∀ p, p < keys.length → 2 * n ≤ p → ∀ q, q < keys.length → p ≤ q →
      predRatio keys p ≤ predRatio keys q)
    {c1 c2 : ℕ} (h1 : StopAt keys n r c1) (h2 : StopAt keys n r c2) : c1 = c2 := by
  have key : ∀ a b : ℕ, StopAt keys n r a → StopAt keys n r b → a < b → False := by
    intro a b ha hb hab
    have haK : a < keys.length := lt_of_lt_of_le hab hb.2.1
    have hra : r < predRatio keys a := by
      rcases ha.2.2.1 with h | h
      · omega
      · exact h
    have hble : predRatio keys (b - 1) ≤ r := hb.2.2.2
    have := hsort a haK ha.1 (b - 1) (by have := hb.2.1; omega) (by omega)
    linarith
  rcases lt_trichotomy c1 c2 with h | h | h
  · exact absurd (key c1 c2 h1 h2 h) id
  · exact h
  · exact absurd (key c2 c1 h2 h1 h) id

theorem StopAt_char {κ : Type} [Inhabited κ] [TrackKey κ] {keys : List κ} {n : ℕ}
    {r : ℚ} (hn : 4 ≤ n)
    (hsort : ∀ p, p < keys.length → 2 * n ≤ p → ∀ q, q < keys.length → p ≤ q →
      predRatio keys p ≤ predRatio keys q)
    {c : ℕ} (h : StopAt keys n r c) :
    ∀ p, 2 * n ≤ p → p < keys.length → (predRatio keys p ≤ r ↔ p < c) := by
  intro p hp hpK
  constructor
  · intro hpr
    by_contra hge
    push_neg at hge
    have hcK : c < keys.length := lt_of_le_of_lt hge hpK
    have hrc : r < predRatio keys c := by
      rcases h.2.2.1 with h' | h'
      · omega
      · exact h'
    have := hsort c hcK h.1 p hpK hge
    linarith
  · intro hpc
    have hc1 : c - 1 < keys.length := by have := h.2.1; have := h.1; omega
    have := hsort p hpK hp (c - 1) hc1 (by omega)
    exact this.trans h.2.2.2

theorem bracket_of_stop {κ : Type} [Inhabited κ] [TrackKey κ] {trk : ℕ → ℕ}
    {keys : List κ} {n : ℕ} {r : ℚ} (hn : 4 ≤ n) (hr0 : 0 ≤ r) (hr1 : r ≤ 1)
    (hseed : ∀ p, p < 2 * n → trk p = p % n)
    (hzero : ∀ p, p < n → kratio keys p = 0)
    (hback : ∀ p, p < keys.length → n ≤ p →
      0 < kprev keys p ∧ kprev keys p ≤ p ∧ trk (p - kprev keys p) = trk p ∧
      (∀ q, q < p → p - kprev keys p < q → trk q ≠ trk p))
    (hsort : ∀ p, p < keys.length → 2 * n ≤ p → ∀ q, q < keys.length → p ≤ q →
      predRatio keys p ≤ predRatio keys q)
    (hcover : ∀ p, p < keys.length →
      (∀ q, q < keys.length → p < q → trk q ≠ trk p) → 1 ≤ kratio keys p)
    {c : ℕ} {cache : ℕ → ℕ}
    (hInv : CacheInv trk keys n c cache) (hstop : StopAt keys n r c) :
    ∀ t, t < n → kratio keys (cache t) ≤ r ∧ r ≤ kratio keys (cache (t + n)) := by
  intro t ht
  have hchar := StopAt_char hn hsort hstop
  have hlastb : cache (t + n) = lastBelow trk t c := (hInv.2.2 t ht).1
  have hpen : cache t = lastBelow trk t (lastBelow trk t c) := (hInv.2.2 t ht).2
  have hmemb := lastBelow_seeded hseed ht hInv.1
  have hbK : lastBelow trk t c < keys.length := lt_of_lt_of_le hmemb.2.2 hInv.2.1
  constructor
  · rcases Nat.lt_or_ge (lastBelow trk t c) (2 * n) with hb2n | hb2n
    · have hbseed : lastBelow trk t c = n + t := by
        have hmod := hseed (lastBelow trk t c) hb2n
        have hsub : lastBelow trk t c % n = lastBelow trk t c - n := by
          rw [Nat.mod_eq_sub_mod (by omega), Nat.mod_eq_of_lt (by omega)]
        have := hmemb.1
        omega
      rw [hpen, hbseed, lastBelow_seed_pen hseed ht, hzero t (by omega)]
      exact hr0
    · have htgt : lastBelow trk t c - kprev keys (lastBelow trk t c) =
          lastBelow trk (trk (lastBelow trk t c)) (lastBelow trk t c) :=
        target_eq_lastBelow hback hbK (by omega)
      have hpr : predRatio keys (lastBelow trk t c) ≤ r :=
        (hchar (lastBelow trk t c) hb2n hbK).mpr hmemb.2.2
      rw [hpen]
      calc kratio keys (lastBelow trk t (lastBelow trk t c))
          = predRatio keys (lastBelow trk t c) := by
            rw [predRatio, predTarget, htgt, hmemb.1]
        _ ≤ r := hpr
  · rw [hlastb]
    by_cases hq : ∃ q, c ≤ q ∧ q < keys.length ∧ trk q = t
    · have hq0 := Nat.find_spec hq
      have hmin : ∀ m, m < Nat.find hq → ¬(c ≤ m ∧ m < keys.length ∧ trk m = t) :=
        fun m hm => Nat.find_min hq hm
      have hlbq : lastBelow trk t (Nat.find hq) = lastBelow trk t c := by
        refine lastBelow_eq trk (lt_of_lt_of_le hmemb.2.2 hq0.1) hmemb.1 ?_
        intro q' hq' hq't
        rcases Nat.lt_or_ge q' c with h | h
        · exact le_lastBelow trk h hq't
        · exact absurd ⟨h, lt_trans hq' hq0.2.1, hq't⟩ (hmin q' hq')
      have htgtq : Nat.find hq - kprev keys (Nat.find hq) =
          lastBelow trk (trk (Nat.find hq)) (Nat.find hq) :=
        target_eq_lastBelow hback hq0.2.1 (by have := hq0.1; have := hstop.1; omega)
      have heqp : predRatio keys (Nat.find hq) = kratio keys (lastBelow trk t c) := by
        rw [predRatio, predTarget, htgtq, hq0.2.2, hlbq]
      have hnle : ¬ predRatio keys (Nat.find hq) ≤ r := by
        intro hle
        have := (hchar (Nat.find hq) (le_trans hstop.1 hq0.1) hq0.2.1).mp hle
        omega
      rw [← heqp]
      linarith [lt_of_not_le hnle]
    · push_neg at hq
      have hge1 : 1 ≤ kratio keys (lastBelow trk t c) := by
        refine hcover (lastBelow trk t c) hbK ?_
        intro q hqK hbq
        rw [hmemb.1]
        rcases Nat.lt_or_ge q c with h | h
        · intro hqt
          have := le_lastBelow trk h hqt
          omega
        · exact hq q h hqK
      linarith

theorem CacheInv_determined {κ : Type} [Inhabited κ] [TrackKey κ] {trk : ℕ → ℕ}
    {keys : List κ} {n c : ℕ} {cache1 cache2 : ℕ → ℕ}
    (hInv1 : CacheInv trk keys n c cache1) (hInv2 : CacheInv trk keys n c cache2) :
    ∀ i, i < 2 * n → cache1 i = cache2 i := by
  intro i hi
  rcases Nat.lt_or_ge i n with h | h
  · rw [(hInv1.2.2 i h).2, (hInv2.2.2 i h).2]
  · rw [cache_entry_eq hInv1 h hi, cache_entry_eq hInv2 h hi]

theorem UpdateCacheCursor_warm_spec {κ : Type} [Inhabited κ] [TrackKey κ]
    {trk : ℕ → ℕ} {keys : List κ} {nSoa : ℕ} {r : ℚ}
    (hv : ValidStream trk (nSoa * 4) keys) (hr0 : 0 ≤ r)
    {st : ChannelState} (hc0 : ¬ st.cursor = 0)
    (hInv : CacheInv trk keys (nSoa * 4) st.cursor st.cache) :
    CacheInv trk keys (nSoa * 4) (UpdateCacheCursor r nSoa keys st).cursor
      (UpdateCacheCursor r nSoa keys st).cache ∧
    StopAt keys (nSoa * 4) r (UpdateCacheCursor r nSoa keys st).cursor ∧
    ChannelDelta (nSoa * 4) st (UpdateCacheCursor r nSoa keys st) := by
  obtain ⟨hn4, h2n, htrk, hseed, hzero, hback, hsort, hcover⟩ := hv
  simp only [UpdateCacheCursor, if_neg hc0]
  obtain ⟨f1, f2, f3, f4, f5, f6⟩ :=
    ForwardLoop_spec hseed htrk hback keys.length st.cursor 0 st.cache st.outdated
      hInv (by omega) (by omega)
  obtain ⟨w1, w2, w3, w4, w5, w6⟩ :=
    RewindLoop_spec (by omega) hr0 hseed htrk hzero hback
      (ForwardLoop r keys (nSoa * 4) keys.length st.cursor 0 st.cache st.outdated).cursor
      (ForwardLoop r keys (nSoa * 4) keys.length st.cursor 0 st.cache st.outdated).track
      (ForwardLoop r keys (nSoa * 4) keys.length st.cursor 0 st.cache st.outdated).cache
      (ForwardLoop r keys (nSoa * 4) keys.length st.cursor 0 st.cache st.outdated).outdated
      f1 f2
  refine ⟨w1, ⟨w1.1, w1.2.1, ?_, w6⟩, ?_⟩
  · rcases eq_or_lt_of_le w4 with heq | hlt
    · rw [heq]
      exact f6
    · exact Or.inr (w5 _ (le_refl _) hlt)
  · have hd := CacheDelta_comp f3 w3
    exact ⟨hd.1, hd.2.1, hd.2.2.1, hd.2.2.2⟩

theorem UpdateCacheCursor_fresh_spec {κ : Type} [Inhabited κ] [TrackKey κ]
    {trk : ℕ → ℕ} {keys : List κ} {nSoa : ℕ} {r : ℚ}
    (hv : ValidStream trk (nSoa * 4) keys) (hr0 : 0 ≤ r)
    {st : ChannelState} (hc0 : st.cursor = 0) :
    CacheInv trk keys (nSoa * 4) (UpdateCacheCursor r nSoa keys st).cursor
      (UpdateCacheCursor r nSoa keys st).cache ∧
    StopAt keys (nSoa * 4) r (UpdateCacheCursor r nSoa keys st).cursor ∧
    (∀ i, 2 * (nSoa * 4) ≤ i → (UpdateCacheCursor r nSoa keys st).cache i = st.cache i) ∧
    (∀ g, (UpdateCacheCursor r nSoa keys st).outdated g =
      if g < 8 * ((nSoa + 7) / 8) then decide (g < nSoa) else st.outdated g) := by
  obtain ⟨hn4, h2n, htrk, hseed, hzero, hback, hsort, hcover⟩ := hv
  simp only [UpdateCacheCursor, if_pos hc0]
  have hinit : CacheInv trk keys (nSoa * 4) (nSoa * 4 * 2)
      (fun i => if i < nSoa * 4 * 2 then i else st.cache i) :=
    init_CacheInv hseed h2n st.cache
  obtain ⟨f1, f2, f3, f4, f5, f6⟩ :=
    ForwardLoop_spec hseed htrk hback keys.length (nSoa * 4 * 2) 0
      (fun i => if i < nSoa * 4 * 2 then i else st.cache i)
      (fun g => if g < 8 * ((nSoa + 7) / 8) then decide (g < nSoa) else st.outdated g)
      hinit (by omega) (by omega)
  obtain ⟨w1, w2, w3, w4, w5, w6⟩ :=
    RewindLoop_spec (by omega) hr0 hseed htrk hzero hback
      (ForwardLoop r keys (nSoa * 4) keys.length (nSoa * 4 * 2) 0
        (fun i => if i < nSoa * 4 * 2 then i else st.cache i)
        (fun g => if g < 8 * ((nSoa + 7) / 8) then decide (g < nSoa) else st.outdated g)).cursor
      (ForwardLoop r keys (nSoa * 4) keys.length (nSoa * 4 * 2) 0
        (fun i => if i < nSoa * 4 * 2 then i else st.cache i)
        (fun g => if g < 8 * ((nSoa + 7) / 8) then decide (g < nSoa) else st.outdated g)).track
      (ForwardLoop r keys (nSoa * 4) keys.length (nSoa * 4 * 2) 0
        (fun i => if i < nSoa * 4 * 2 then i else st.cache i)
        (fun g => if g < 8 * ((nSoa + 7) / 8) then decide (g < nSoa) else st.outdated g)).cache
      (ForwardLoop r keys (nSoa * 4) keys.length (nSoa * 4 * 2) 0
        (fun i => if i < nSoa * 4 * 2 then i else st.cache i)
        (fun g => if g < 8 * ((nSoa + 7) / 8) then decide (g < nSoa) else st.outdated g)).outdated
      f1 f2
  have hd := CacheDelta_comp f3 w3
  refine ⟨w1, ⟨w1.1, w1.2.1, ?_, w6⟩, ?_, ?_⟩
  · rcases eq_or_lt_of_le w4 with heq | hlt
    · rw [heq]
      exact f6
    · exact Or.inr (w5 _ (le_refl _) hlt)
  · intro i hi
    have := hd.2.2.1 i hi
    rw [this]
    exact if_neg (by omega)
  · intro g
    by_contra hne
    have h4g : 4 * g < nSoa * 4 := hd.2.2.2 g (fun h => hne h)
    have hgood : (if g < 8 * ((nSoa + 7) / 8) then decide (g < nSoa)
        else st.outdated g) = true := by
      rw [if_pos (by omega), decide_eq_true_eq]
      omega
    exact hne ((hd.1 g hgood).trans hgood.symm)

theorem UpdateCacheCursor_spec {κ : Type} [Inhabited κ] [TrackKey κ]
    {trk : ℕ → ℕ} {keys : List κ} {nSoa : ℕ} {r : ℚ}
    (hv : ValidStream trk (nSoa * 4) keys) (hr0 : 0 ≤ r)
    {st : ChannelState}
    (hst : st.cursor = 0 ∨ CacheInv trk keys (nSoa * 4) st.cursor st.cache) :
    CacheInv trk keys (nSoa * 4) (UpdateCacheCursor r nSoa keys st).cursor
      (UpdateCacheCursor r nSoa keys st).cache ∧
    StopAt keys (nSoa * 4) r (UpdateCacheCursor r nSoa keys st).cursor := by
  by_cases hz : st.cursor = 0
  · have h := UpdateCacheCursor_fresh_spec hv hr0 hz
    exact ⟨h.1, h.2.1⟩
  · rcases hst with h | h
    · exact absurd h hz
    · have h' := UpdateCacheCursor_warm_spec hv hr0 hz h
      exact ⟨h'.1, h'.2.1⟩

/-- Claim C1 (amended): for a valid clip channel — seeded first `2n` entries,
ratio-0 first keyframes, correct back-distances, entries past the seeds
sorted by predecessor ratio (the needed-time order the compressed stream
actually uses, replacing the claim's plain time-sorting, which
`C1_counterexample` refutes), final keyframes at ratio ≥ 1 — and a query
ratio in [0, 1], after `UpdateCacheCursor` returns from a fresh state or any
reached cache state, every track's penultimate bracket ratio is ≤ the query
ratio ≤ its last bracket ratio, and the returned cursor lies right after
exactly those stream entries whose predecessor ratio is ≤ the query ratio —
the entries consumed from the start of the stream. -/
theorem C1_bracket_invariant {κ : Type} [Inhabited κ] [TrackKey κ]
    (trk : ℕ → ℕ) (nSoa : ℕ) (keys : List κ) (r : ℚ) (st : ChannelState)
    (hv : ValidStream trk (nSoa * 4) keys)
    (hst : st.cursor = 0 ∨ CacheInv trk keys (nSoa * 4) st.cursor st.cache)
    (hr0 : 0 ≤ r) (hr1 : r ≤ 1) :
    (∀ t, t < nSoa * 4 →
      kratio keys ((UpdateCacheCursor r nSoa keys st).cache t) ≤ r ∧
      r ≤ kratio keys ((UpdateCacheCursor r nSoa keys st).cache (t + nSoa * 4))) ∧
    2 * (nSoa * 4) ≤ (UpdateCacheCursor r nSoa keys st).cursor ∧
    (UpdateCacheCursor r nSoa keys st).cursor ≤ keys.length ∧
    (∀ p, 2 * (nSoa * 4) ≤ p → p < keys.length →
      (predRatio keys p ≤ r ↔ p < (UpdateCacheCursor r nSoa keys st).cursor)) := by
  obtain ⟨hInv, hstop⟩ := UpdateCacheCursor_spec hv hr0 hst
  obtain ⟨hn4, h2n, htrk, hseed, hzero, hback, hsort, hcover⟩ := hv
  exact ⟨bracket_of_stop hn4 hr0 hr1 hseed hzero hback hsort hcover hInv hstop,
    hstop.1, hstop.2.1, StopAt_char hn4 hsort hstop⟩

/-- Witness for C1 on the concrete four-track clip `exKeys` at query ratio
1/2 from a fresh channel state. -/
theorem C1_bracket_invariant_witness :
    ValidStream exTrk (1 * 4) exKeys ∧ exFresh.cursor = 0 ∧
    (0 : ℚ) ≤ mkRat 1 2 ∧ (mkRat 1 2 : ℚ) ≤ 1 ∧
    ((∀ t, t < 1 * 4 →
      kratio exKeys ((UpdateCacheCursor (mkRat 1 2) 1 exKeys exFresh).cache t) ≤ mkRat 1 2 ∧
      mkRat 1 2 ≤ kratio exKeys
        ((UpdateCacheCursor (mkRat 1 2) 1 exKeys exFresh).cache (t + 1 * 4))) ∧
    2 * (1 * 4) ≤ (UpdateCacheCursor (mkRat 1 2) 1 exKeys exFresh).cursor ∧
    (UpdateCacheCursor (mkRat 1 2) 1 exKeys exFresh).cursor ≤ exKeys.length ∧
    (∀ p, 2 * (1 * 4) ≤ p → p < exKeys.length →
      (predRatio exKeys p ≤ mkRat 1 2 ↔
        p < (UpdateCacheCursor (mkRat 1 2) 1 exKeys exFresh).cursor))) :=
  ⟨by decide, by decide, by decide, by decide,
   C1_bracket_invariant exTrk 1 exKeys (mkRat 1 2) exFresh (by decide)
     (Or.inl (by decide)) (by decide) (by decide)⟩

/-- Counterexample to claim C1 as stated: `cxKeys` is globally time-sorted
(ascending ratio), has correct back-distances, seeded first entries, ratio-0
first keyframes and even ratio-1 final keyframes for all four tracks, yet
after `UpdateCacheCursor` at ratio 1/2 from a fresh state the last bracket
of track 1 holds the keyframe of ratio 3/10 < 1/2: plain time-sorting does
not give the bracket invariant (the stream must be sorted by predecessor
ratio). -/
theorem C1_counterexample :
    TimeSortedValid cxTrk (1 * 4) cxKeys ∧ exFresh.cursor = 0 ∧
    (0 : ℚ) ≤ mkRat 1 2 ∧ (mkRat 1 2 : ℚ) ≤ 1 ∧
    ¬ (mkRat 1 2 ≤ kratio cxKeys
        ((UpdateCacheCursor (mkRat 1 2) 1 cxKeys exFresh).cache (1 + 1 * 4))) :=
  ⟨by decide, by decide, by decide, by decide, by decide⟩

/-- Claim C4 (amended): one step of the forward phase consumes the stream
entry at the cursor exactly while the keyframe at `cursor - back-distance` —
the owning track's current last bracket — has ratio ≤ the query ratio (the
claim's wording, the ratio of the entry at the cursor itself, is refuted by
`C4_counterexample`); the consumed entry becomes the owning track's new last
bracket, the old last becomes the penultimate, the owning track's group is
flagged outdated and the cursor advances by one. -/
theorem C4_forward_consume_iff {κ : Type} [Inhabited κ] [TrackKey κ]
    (trk : ℕ → ℕ) (keys : List κ) (n : ℕ) (r : ℚ) (fuel cursor track : ℕ)
    (cache : ℕ → ℕ) (od : ℕ → Bool)
    (hseed : ∀ p, p < 2 * n → trk p = p % n)
    (htrk : ∀ p, p < keys.length → trk p < n)
    (hback : ∀ p, p < keys.length → n ≤ p →
      0 < kprev keys p ∧ kprev keys p ≤ p ∧ trk (p - kprev keys p) = trk p ∧
      (∀ q, q < p → p - kprev keys p < q → trk q ≠ trk p))
    (hInv : CacheInv trk keys n cursor cache) (htr : track < n) :
    ForwardLoop r keys n (fuel + 1) cursor track cache od =
      (if cursor < keys.length ∧ predRatio keys cursor ≤ r then
        ForwardLoop r keys n fuel (cursor + 1) (trk cursor)
          (Function.update (Function.update cache (trk cursor) (cache (trk cursor + n)))
            (trk cursor + n) cursor)
          (Function.update od (trk cursor / 4) true)
      else ⟨cursor, track, cache, od⟩) := by
  by_cases hcond : cursor < keys.length ∧ predRatio keys cursor ≤ r
  · rw [if_pos hcond, ForwardLoop_step r keys n fuel cursor track cache od hcond,
      (forward_consume hseed htrk hback hInv hcond.1 htr).1]
  · rw [if_neg hcond, ForwardLoop_stop r keys n fuel cursor track cache od hcond]

/-- Witness for C4 on `exKeys` at the first post-seed position. -/
theorem C4_forward_consume_iff_witness :
    (∀ p, p < 2 * 4 → exTrk p = p % 4) ∧
    (∀ p, p < exKeys.length → exTrk p < 4) ∧
    CacheInv exTrk exKeys 4 8 c4Cache ∧ 0 < 4 ∧
    ForwardLoop (mkRat 1 2) exKeys 4 (4 + 1) 8 0 c4Cache (fun _ => false) =
      (if 8 < exKeys.length ∧ predRatio exKeys 8 ≤ mkRat 1 2 then
        ForwardLoop (mkRat 1 2) exKeys 4 4 (8 + 1) (exTrk 8)
          (Function.update (Function.update c4Cache (exTrk 8) (c4Cache (exTrk 8 + 4)))
            (exTrk 8 + 4) 8)
          (Function.update (fun _ => false) (exTrk 8 / 4) true)
      else ⟨8, 0, c4Cache, fun _ => false⟩) :=
  ⟨by decide, by decide, by decide, by decide,
   C4_forward_consume_iff exTrk exKeys 4 (mkRat 1 2) 4 8 0 c4Cache (fun _ => false)
     (by decide) (by decide) (by decide) (by decide) (by decide)⟩

/-- Counterexample to claim C4 as stated: on the valid clip `exKeys` at
query ratio 1/2, the forward phase consumes the entries at positions 8–11
(the cursor ends at 12 and position 8 has become track 0's last bracket)
although the ratio of those entries themselves is 1 > 1/2: consumption is
not governed by the ratio of the entry at the cursor position. -/
theorem C4_counterexample :
    ValidStream exTrk (1 * 4) exKeys ∧ TimeSortedValid exTrk (1 * 4) exKeys ∧
    (UpdateCacheCursor (mkRat 1 2) 1 exKeys exFresh).cursor = 12 ∧
    (UpdateCacheCursor (mkRat 1 2) 1 exKeys exFresh).cache (0 + 1 * 4) = 8 ∧
    ¬ (kratio exKeys 8 ≤ mkRat 1 2) :=
  ⟨by decide, by decide, by decide, by decide, by decide⟩

/-- Claim C3 (amended): `Context::Step` resets all three channel cursors to
0 exactly when the animation identity differs from the last-used one, or
when the last-used ratio exceeds the 0.05 restart threshold and exceeds the
new ratio by more than the NEW ratio itself (`ratio_ - r > r`; the claim's
"by more than the last-used ratio itself" is refuted by
`C3_counterexample`); in every other case the cursors are unchanged; the new
ratio is recorded unconditionally, the animation identity is the recorded
one in all cases, and no other context field changes. -/
theorem C3_step_characterisation (ctx : Context) (animId : ℕ) (r : ℚ) :
    ((ContextStep ctx animId r).translationState.cursor =
      if ctx.lastAnimation ≠ some animId ∨
          (kRestartOverhead < ctx.lastRatio ∧ r < ctx.lastRatio - r) then 0
      else ctx.translationState.cursor) ∧
    ((ContextStep ctx animId r).rotationState.cursor =
      if ctx.lastAnimation ≠ some animId ∨
          (kRestartOverhead < ctx.lastRatio ∧ r < ctx.lastRatio - r) then 0
      else ctx.rotationState.cursor) ∧
    ((ContextStep ctx animId r).scaleState.cursor =
      if ctx.lastAnimation ≠ some animId ∨
          (kRestartOverhead < ctx.lastRatio ∧ r < ctx.lastRatio - r) then 0
      else ctx.scaleState.cursor) ∧
    (ContextStep ctx animId r).lastRatio = r ∧
    (ContextStep ctx animId r).lastAnimation = some animId ∧
    (ContextStep ctx animId r).translationState.cache = ctx.translationState.cache ∧
    (ContextStep ctx animId r).translationState.outdated = ctx.translationState.outdated ∧
    (ContextStep ctx animId r).rotationState.cache = ctx.rotationState.cache ∧
    (ContextStep ctx animId r).rotationState.outdated = ctx.rotationState.outdated ∧
    (ContextStep ctx animId r).scaleState.cache = ctx.scaleState.cache ∧
    (ContextStep ctx animId r).scaleState.outdated = ctx.scaleState.outdated ∧
    (ContextStep ctx animId r).maxSoaTracks = ctx.maxSoaTracks ∧
    (ContextStep ctx animId r).soaTranslations = ctx.soaTranslations ∧
    (ContextStep ctx animId r).soaRotations = ctx.soaRotations ∧
    (ContextStep ctx animId r).soaScales = ctx.soaScales := by
  simp only [ContextStep]
  by_cases hcond : ctx.lastAnimation ≠ some animId ∨
      (kRestartOverhead < ctx.lastRatio ∧ r < ctx.lastRatio - r)
  · simp [if_pos hcond]
  · have hsame : ctx.lastAnimation = some animId :=
      not_not.mp (not_or.mp hcond).1
    have hrestart : ¬ (kRestartOverhead < ctx.lastRatio ∧ r < ctx.lastRatio - r) :=
      (not_or.mp hcond).2
    simp [hsame, hrestart]

/-- Counterexample to claim C3 as stated: stepping `cxContext` (same
animation identity 0, last ratio 3/4, warm cursors at 7) to the new ratio
1/8 is not a reset under the claim's condition — the drop 3/4 - 1/8 = 5/8
does not exceed the last-used ratio 3/4 — so the claim predicts unchanged
cursors, yet the code resets the translation cursor to 0 (its condition
compares the drop against the NEW ratio). -/
theorem C3_counterexample :
    cxContext.lastAnimation = some 0 ∧
    cxContext.translationState.cursor = 7 ∧
    ¬ (cxContext.lastRatio - mkRat 1 8 > cxContext.lastRatio) ∧
    (ContextStep cxContext 0 (mkRat 1 8)).translationState.cursor = 0 := by
  refine ⟨rfl, rfl, ?_, ?_⟩
  · show ¬ (mkRat 3 4 - mkRat 1 8 > mkRat 3 4)
    norm_num [Rat.mkRat_eq_div]
  · have hrestart : kRestartOverhead < cxContext.lastRatio ∧
        mkRat 1 8 < cxContext.lastRatio - mkRat 1 8 := by
      constructor
      · show mkRat 1 20 < mkRat 3 4
        decide
      · show mkRat 1 8 < mkRat 3 4 - mkRat 1 8
        norm_num [Rat.mkRat_eq_div]
    simp [ContextStep, hrestart]

/-- Claim C5 (amended): Validate fails on a missing animation or context;
with both present it returns true exactly when the output buffer is
non-empty (the condition the claim omits — see `C5_counterexample`) and
both the output size and the context capacity reach the clip's track-group
count; and whenever Validate fails, Run returns false leaving the context
and output buffer unchanged. -/
theorem C5_validate_run (ops : MathOps) (job : SamplingJob) (out : ℕ → SoaTransform) :
    ((job.animation = none ∨ job.context = none) → job.Validate = false) ∧
    (∀ animId anim ctx, job.animation = some (animId, anim) → job.context = some ctx →
      (job.Validate = true ↔
        (job.outputSize ≠ 0 ∧ anim.numSoaTracks ≤ job.outputSize ∧
         anim.numSoaTracks ≤ ctx.maxSoaTracks))) ∧
    (job.Validate = false → SamplingJob.Run ops job out = (false, job.context, out)) := by
  refine ⟨?_, ?_, ?_⟩
  · intro h
    unfold SamplingJob.Validate
    rcases hA : job.animation with _ | ⟨animId, anim⟩ <;>
      rcases hC : job.context with _ | ctx <;> simp_all
  · intro animId anim ctx hA hC
    unfold SamplingJob.Validate
    rw [hA, hC]
    simp [and_assoc]
  · intro hval
    unfold SamplingJob.Run
    simp [hval]

/-- Witness for C5: an empty output buffer fails validation and Run leaves
everything unchanged. -/
theorem C5_validate_run_witness :
    cxJob0.Validate = false ∧
    SamplingJob.Run junkOps cxJob0 junkOut = (false, cxJob0.context, junkOut) :=
  ⟨by decide, (C5_validate_run junkOps cxJob0 junkOut).2.2 (by decide)⟩

/-- Counterexample to claim C5 as stated: in `cxJob0` the animation and
context are present and both capacity conditions of the claim hold (0 track
groups fit an output of size 0 and a capacity of 0), yet Validate returns
false — the buffer-non-empty condition is missing from the claim's list. -/
theorem C5_counterexample :
    cxJob0.animation = some (0, cxAnim0) ∧
    cxJob0.context = some cxCtx0 ∧
    cxAnim0.numSoaTracks ≤ cxJob0.outputSize ∧
    cxAnim0.numSoaTracks ≤ cxCtx0.maxSoaTracks ∧
    cxJob0.Validate = false :=
  ⟨rfl, rfl, by decide, by decide, by decide⟩

/-- Claim C6 (amended): for a clip with zero track groups, non-null
animation and context of any capacity and a NON-EMPTY output buffer (the
condition the claim's "any capacity" wording glosses over — see
`C6_counterexample`), Run returns success and writes nothing: the context
and the output buffer are returned unchanged. -/
theorem C6_zero_track_groups (ops : MathOps) (r : ℚ) (animId : ℕ) (anim : Animation)
    (ctx : Context) (sz : ℕ) (out : ℕ → SoaTransform)
    (h0 : anim.numSoaTracks = 0) (hsz : sz ≠ 0) :
    SamplingJob.Run ops ⟨r, some (animId, anim), some ctx, sz⟩ out =
      (true, some ctx, out) := by
  have hval : SamplingJob.Validate ⟨r, some (animId, anim), some ctx, sz⟩ = true := by
    unfold SamplingJob.Validate
    simp [h0, hsz]
  unfold SamplingJob.Run
  simp [hval, h0]

/-- Witness for C6 on the concrete zero-track clip with a one-slot output
buffer. -/
theorem C6_zero_track_groups_witness :
    cxAnim0.numSoaTracks = 0 ∧ (1 : ℕ) ≠ 0 ∧
    SamplingJob.Run junkOps ⟨0, some (0, cxAnim0), some cxCtx0, 1⟩ junkOut =
      (true, some cxCtx0, junkOut) :=
  ⟨rfl, by decide,
   C6_zero_track_groups junkOps 0 0 cxAnim0 cxCtx0 1 junkOut rfl (by decide)⟩

/-- Counterexample to claim C6 as stated: on the zero-track clip with an
EMPTY output buffer (which the claim's "context of any capacity" wording
allows), Run returns false, not the claimed success. -/
theorem C6_counterexample :
    cxAnim0.numSoaTracks = 0 ∧
    (SamplingJob.Run junkOps ⟨0, some (0, cxAnim0), some cxCtx0, 0⟩ junkOut).1 = false :=
  ⟨rfl, by decide⟩

theorem clampQ_mem (r : ℚ) : 0 ≤ clampQ 0 r 1 ∧ clampQ 0 r 1 ≤ 1 := by
  unfold clampQ
  exact ⟨le_max_left 0 _, max_le (by norm_num) (min_le_right r 1)⟩

theorem clampQ_idem (r : ℚ) : clampQ 0 (clampQ 0 r 1) 1 = clampQ 0 r 1 := by
  obtain ⟨h0, h1⟩ := clampQ_mem r
  conv in clampQ 0 (clampQ 0 r 1) 1 => rw [clampQ]
  rw [min_eq_left h1, max_eq_right h0]

/-- Claim C7: running the sampler at ratio r and at clamp(r, 0, 1) produce
identical output and leave the context in an identical state — Run clamps
the ratio before any use, so both runs are the same function of the clamped
value; this holds for every clip, context state and external maths
instantiation, with no validity assumption. -/
theorem C7_clamp_idempotent (ops : MathOps) (job : SamplingJob) (out : ℕ → SoaTransform) :
    SamplingJob.Run ops { job with ratio := clampQ 0 job.ratio 1 } out =
      SamplingJob.Run ops job out := by
  simp only [SamplingJob.Run, SamplingJob.Validate, clampQ_idem]

/-- Claim C10: an empty output buffer always fails validation — also for a
zero-track clip whose two capacity conditions hold trivially — and
consequently Run returns false. -/
theorem C10_empty_output_fails (ops : MathOps) (job : SamplingJob)
    (out : ℕ → SoaTransform) (h : job.outputSize = 0) :
    job.Validate = false ∧ (SamplingJob.Run ops job out).1 = false := by
  have hval : job.Validate = false := by
    unfold SamplingJob.Validate
    rcases hA : job.animation with _ | ⟨animId, anim⟩ <;>
      rcases hC : job.context with _ | ctx <;> simp [h]
  refine ⟨hval, ?_⟩
  unfold SamplingJob.Run
  simp [hval]

/-- Witness for C10 on the concrete empty-output job over the zero-track
clip, whose capacity conditions hold. -/
theorem C10_empty_output_fails_witness :
    cxJob0.outputSize = 0 ∧ cxJob0.Validate = false ∧
    (SamplingJob.Run junkOps cxJob0 junkOut).1 = false :=
  ⟨rfl, (C10_empty_output_fails junkOps cxJob0 junkOut rfl).1,
   (C10_empty_output_fails junkOps cxJob0 junkOut rfl).2⟩

theorem UIK_fold_char {κ V : Type} [Inhabited κ] [TrackKey κ] (nSoa : ℕ)
    (keys : List κ) (cache : ℕ → ℕ) (dec : κ → κ → κ → κ → V)
    (od : ℕ → Bool) (interp : ℕ → InterpEntry V) :
    ∀ m : ℕ,
      (∀ g, ((List.range m).foldl
        (fun st g =>
          (Function.update st.1 g false,
           if st.1 g then Function.update st.2 g (recomputeEntry nSoa keys cache dec g)
           else st.2))
        (od, interp)).1 g = if g < m then false else od g) ∧
      (∀ g, ((List.range m).foldl
        (fun st g =>
          (Function.update st.1 g false,
           if st.1 g then Function.update st.2 g (recomputeEntry nSoa keys cache dec g)
           else st.2))
        (od, interp)).2 g =
          if g < m ∧ od g = true then recomputeEntry nSoa keys cache dec g
          else interp g) := by
  intro m
  induction m with
  | zero =>
    simp only [List.range_zero, List.foldl_nil]
    exact ⟨fun g => by rw [if_neg (by omega)],
      fun g => by rw [if_neg (fun h => by omega)]⟩
  | succ m ih =>
    obtain ⟨ih1, ih2⟩ := ih
    rw [List.range_succ]
    simp only [List.foldl_append, List.foldl_cons, List.foldl_nil]
    have hAm : ((List.range m).foldl
        (fun st g =>
          (Function.update st.1 g false,
           if st.1 g then Function.update st.2 g (recomputeEntry nSoa keys cache dec g)
           else st.2))
        (od, interp)).1 m = od m := by
      rw [ih1 m, if_neg (lt_irrefl m)]
    constructor
    · intro g
      rcases eq_or_ne g m with rfl | hne
      · rw [Function.update_same, if_pos (by omega)]
      · rw [Function.update_noteq hne, ih1 g]
        by_cases h : g < m
        · rw [if_pos h, if_pos (by omega)]
        · rw [if_neg h, if_neg (by omega)]
    · intro g
      by_cases hod : od m = true
      · rw [if_pos (hAm.trans hod)]
        rcases eq_or_ne g m with rfl | hne
        · rw [Function.update_same, if_pos ⟨by omega, hod⟩]
        · rw [Function.update_noteq hne, ih2 g]
          by_cases h : g < m ∧ od g = true
          · rw [if_pos h, if_pos ⟨by omega, h.2⟩]
          · rw [if_neg h, if_neg (fun hc => h ⟨by omega, hc.2⟩)]
      · rw [if_neg (fun hh => hod (hAm.symm.trans hh))]
        rcases eq_or_ne g m with heq | hne
        · rw [heq, ih2 m, if_neg (fun hc => absurd hc.1 (lt_irrefl m)),
            if_neg (fun hc => hod hc.2)]
        · rw [ih2 g]
          by_cases h : g < m ∧ od g = true
          · rw [if_pos h, if_pos ⟨by omega, h.2⟩]
          · rw [if_neg h, if_neg (fun hc => h ⟨by omega, hc.2⟩)]

theorem UIK_char {κ V : Type} [Inhabited κ] [TrackKey κ] (nSoa : ℕ)
    (keys : List κ) (cache : ℕ → ℕ) (od : ℕ → Bool) (interp : ℕ → InterpEntry V)
    (dec : κ → κ → κ → κ → V) :
    (∀ g, (UpdateInterpKeyframes nSoa keys cache od interp dec).1 g =
      if g < 8 * ((nSoa + 7) / 8) then false else od g) ∧
    (∀ g, (UpdateInterpKeyframes nSoa keys cache od interp dec).2 g =
      if g < 8 * ((nSoa + 7) / 8) ∧ od g = true
      then recomputeEntry nSoa keys cache dec g else interp g) := by
  unfold UpdateInterpKeyframes
  exact UIK_fold_char nSoa keys cache dec od interp (8 * ((nSoa + 7) / 8))

/-- Claim C8: after `UpdateInterpKeyframes` returns, every outdated bit in
the flag bytes is cleared; the interpolation operands (both bracket ratios
and both decompressed values) of every track group whose bit was set are
recomputed from the current bracket cache entries; the operands of every
group whose bit was clear are unchanged; and nothing outside the flag bytes
is touched.  Stated for any keyframe type and any decompression functor, as
in the C++ template. -/
theorem C8_interp_keyframes {κ V : Type} [Inhabited κ] [TrackKey κ] (nSoa : ℕ)
    (keys : List κ) (cache : ℕ → ℕ) (od : ℕ → Bool) (interp : ℕ → InterpEntry V)
    (dec : κ → κ → κ → κ → V) :
    (∀ g, g < 8 * ((nSoa + 7) / 8) →
      (UpdateInterpKeyframes nSoa keys cache od interp dec).1 g = false) ∧
    (∀ g, g < 8 * ((nSoa + 7) / 8) → od g = true →
      (UpdateInterpKeyframes nSoa keys cache od interp dec).2 g =
        recomputeEntry nSoa keys cache dec g) ∧
    (∀ g, od g = false →
      (UpdateInterpKeyframes nSoa keys cache od interp dec).2 g = interp g) ∧
    (∀ g, 8 * ((nSoa + 7) / 8) ≤ g →
      (UpdateInterpKeyframes nSoa keys cache od interp dec).1 g = od g ∧
      (UpdateInterpKeyframes nSoa keys cache od interp dec).2 g = interp g) := by
  obtain ⟨h1, h2⟩ := UIK_char nSoa keys cache od interp dec
  refine ⟨?_, ?_, ?_, ?_⟩
  · intro g hg
    rw [h1 g, if_pos hg]
  · intro g hg hod
    rw [h2 g, if_pos ⟨hg, hod⟩]
  · intro g hod
    rw [h2 g, if_neg (fun hc => by rw [hod] at hc; exact Bool.false_ne_true hc.2)]
  · intro g hg
    exact ⟨by rw [h1 g, if_neg (by omega)],
      by rw [h2 g, if_neg (fun hc => by omega)]⟩

/-- Witness for C8 with the concrete clip `exKeys`, the seed cache, group 0
flagged outdated and group 1 clean. -/
theorem C8_interp_keyframes_witness :
    (0 < 8 * ((1 + 7) / 8) ∧
      (UpdateInterpKeyframes 1 exKeys c4Cache (fun g => g == 0) (fun _ => junkF3)
        (DecompressFloat3 junkOps)).1 0 = false) ∧
    ((fun g : ℕ => g == 0) 0 = true ∧
      (UpdateInterpKeyframes 1 exKeys c4Cache (fun g => g == 0) (fun _ => junkF3)
        (DecompressFloat3 junkOps)).2 0 =
        recomputeEntry 1 exKeys c4Cache (DecompressFloat3 junkOps) 0) ∧
    ((fun g : ℕ => g == 0) 1 = false ∧
      (UpdateInterpKeyframes 1 exKeys c4Cache (fun g => g == 0) (fun _ => junkF3)
        (DecompressFloat3 junkOps)).2 1 = junkF3) ∧
    (8 * ((1 + 7) / 8) ≤ 9 ∧
      (UpdateInterpKeyframes 1 exKeys c4Cache (fun g => g == 0) (fun _ => junkF3)
        (DecompressFloat3 junkOps)).1 9 = (fun g : ℕ => g == 0) 9) :=
  ⟨⟨by decide, (C8_interp_keyframes 1 exKeys c4Cache (fun g => g == 0) (fun _ => junkF3)
      (DecompressFloat3 junkOps)).1 0 (by decide)⟩,
   ⟨by decide, (C8_interp_keyframes 1 exKeys c4Cache (fun g => g == 0) (fun _ => junkF3)
      (DecompressFloat3 junkOps)).2.1 0 (by decide) (by decide)⟩,
   ⟨by decide, (C8_interp_keyframes 1 exKeys c4Cache (fun g => g == 0) (fun _ => junkF3)
      (DecompressFloat3 junkOps)).2.2.1 1 (by decide)⟩,
   ⟨by decide, ((C8_interp_keyframes 1 exKeys c4Cache (fun g => g == 0) (fun _ => junkF3)
      (DecompressFloat3 junkOps)).2.2.2 9 (by decide)).1⟩⟩

theorem ChannelState_ext {s t : ChannelState} (h1 : s.cursor = t.cursor)
    (h2 : s.cache = t.cache) (h3 : s.outdated = t.outdated) : s = t := by
  cases s
  cases t
  simp_all

theorem ChannelState_cursor0 {st : ChannelState} (h : st.cursor = 0) :
    ({ st with cursor := 0 } : ChannelState) = st :=
  ChannelState_ext h.symm rfl rfl

theorem ContextStep_state0 (ctx : Context) (animId : ℕ) (r : ℚ)
    (h1 : ctx.translationState.cursor = 0) (h2 : ctx.rotationState.cursor = 0)
    (h3 : ctx.scaleState.cursor = 0) :
    ContextStep ctx animId r =
      { ctx with lastAnimation := some animId, lastRatio := r } := by
  simp only [ContextStep]
  split
  · rw [ChannelState_cursor0 h1, ChannelState_cursor0 h2, ChannelState_cursor0 h3]
  · next hcond =>
    rw [show ctx.lastAnimation = some animId from not_not.mp (not_or.mp hcond).1]

theorem ContextStep_char (ctx : Context) (animId : ℕ) (r : ℚ) :
    ((ContextStep ctx animId r).translationState.cursor =
      if ctx.lastAnimation ≠ some animId ∨
          (kRestartOverhead < ctx.lastRatio ∧ r < ctx.lastRatio - r) then 0
      else ctx.translationState.cursor) ∧
    ((ContextStep ctx animId r).rotationState.cursor =
      if ctx.lastAnimation ≠ some animId ∨
          (kRestartOverhead < ctx.lastRatio ∧ r < ctx.lastRatio - r) then 0
      else ctx.rotationState.cursor) ∧
    ((ContextStep ctx animId r).scaleState.cursor =
      if ctx.lastAnimation ≠ some animId ∨
          (kRestartOverhead < ctx.lastRatio ∧ r < ctx.lastRatio - r) then 0
      else ctx.scaleState.cursor) ∧
    (ContextStep ctx animId r).lastRatio = r ∧
    (ContextStep ctx animId r).lastAnimation = some animId ∧
    (ContextStep ctx animId r).translationState.cache = ctx.translationState.cache ∧
    (ContextStep ctx animId r).translationState.outdated = ctx.translationState.outdated ∧
    (ContextStep ctx animId r).rotationState.cache = ctx.rotationState.cache ∧
    (ContextStep ctx animId r).rotationState.outdated = ctx.rotationState.outdated ∧
    (ContextStep ctx animId r).scaleState.cache = ctx.scaleState.cache ∧
    (ContextStep ctx animId r).scaleState.outdated = ctx.scaleState.outdated ∧
    (ContextStep ctx animId r).maxSoaTracks = ctx.maxSoaTracks ∧
    (ContextStep ctx animId r).soaTranslations = ctx.soaTranslations ∧
    (ContextStep ctx animId r).soaRotations = ctx.soaRotations ∧
    (ContextStep ctx animId r).soaScales = ctx.soaScales := by
  simp only [ContextStep]
  by_cases hcond : ctx.lastAnimation ≠ some animId ∨
      (kRestartOverhead < ctx.lastRatio ∧ r < ctx.lastRatio - r)
  · simp [if_pos hcond]
  · have hsame : ctx.lastAnimation = some animId :=
      not_not.mp (not_or.mp hcond).1
    have hrestart : ¬ (kRestartOverhead < ctx.lastRatio ∧ r < ctx.lastRatio - r) :=
      (not_or.mp hcond).2
    simp [hsame, hrestart]

theorem recomputeEntry_congr {κ V : Type} [Inhabited κ] [TrackKey κ] {nSoa : ℕ}
    (keys : List κ) {c1 c2 : ℕ → ℕ} (dec : κ → κ → κ → κ → V) {g : ℕ}
    (hp : ∀ l, l < 4 → c1 (g * 4 + l) = c2 (g * 4 + l))
    (hl : ∀ l, l < 4 → c1 ((g + nSoa) * 4 + l) = c2 ((g + nSoa) * 4 + l)) :
    recomputeEntry nSoa keys c1 dec g = recomputeEntry nSoa keys c2 dec g := by
  simp only [recomputeEntry]
  rw [show (fun l : Fin 4 => kratio keys (c1 (g * 4 + l.val))) =
      (fun l : Fin 4 => kratio keys (c2 (g * 4 + l.val))) from
    funext fun l => by rw [hp l.val l.isLt]]
  rw [show (fun l : Fin 4 => kratio keys (c1 ((g + nSoa) * 4 + l.val))) =
      (fun l : Fin 4 => kratio keys (c2 ((g + nSoa) * 4 + l.val))) from
    funext fun l => by rw [hl l.val l.isLt]]
  rw [hp 0 (by omega), hp 1 (by omega), hp 2 (by omega), hp 3 (by omega),
    hl 0 (by omega), hl 1 (by omega), hl 2 (by omega), hl 3 (by omega)]

theorem UCC_canonical {κ : Type} [Inhabited κ] [TrackKey κ]
    {trk : ℕ → ℕ} {keys : List κ} {nSoa : ℕ} {r : ℚ}
    (hv : ValidStream trk (nSoa * 4) keys) (hr0 : 0 ≤ r)
    {st1 st2 : ChannelState}
    (h1 : st1.cursor = 0 ∨ CacheInv trk keys (nSoa * 4) st1.cursor st1.cache)
    (h2 : st2.cursor = 0 ∨ CacheInv trk keys (nSoa * 4) st2.cursor st2.cache) :
    (UpdateCacheCursor r nSoa keys st1).cursor =
      (UpdateCacheCursor r nSoa keys st2).cursor ∧
    ∀ i, i < 2 * (nSoa * 4) →
      (UpdateCacheCursor r nSoa keys st1).cache i =
        (UpdateCacheCursor r nSoa keys st2).cache i := by
  obtain ⟨hI1, hS1⟩ := UpdateCacheCursor_spec hv hr0 h1
  obtain ⟨hI2, hS2⟩ := UpdateCacheCursor_spec hv hr0 h2
  have hc : (UpdateCacheCursor r nSoa keys st1).cursor =
      (UpdateCacheCursor r nSoa keys st2).cursor :=
    StopAt_unique hv.2.2.2.2.2.2.1 hS1 hS2
  refine ⟨hc, ?_⟩
  rw [hc] at hI1
  exact CacheInv_determined hI1 hI2

theorem Interp_fold_char (ops : MathOps) (animRatio : ℚ)
    (tr : ℕ → InterpEntry SoaFloat3) (rot : ℕ → InterpEntry SoaQuaternion)
    (sc : ℕ → InterpEntry SoaFloat3) (out : ℕ → SoaTransform) :
    ∀ m g,
      (List.range m).foldl
        (fun o i => Function.update o i (interpGroup ops animRatio (tr i) (rot i) (sc i)))
        out g =
      if g < m then interpGroup ops animRatio (tr g) (rot g) (sc g) else out g := by
  intro m
  induction m with
  | zero =>
    intro g
    simp only [List.range_zero, List.foldl_nil]
    rw [if_neg (by omega)]
  | succ m ih =>
    intro g
    rw [List.range_succ]
    simp only [List.foldl_append, List.foldl_cons, List.foldl_nil]
    rcases eq_or_ne g m with rfl | hne
    · rw [Function.update_same, if_pos (by omega)]
    · rw [Function.update_noteq hne, ih g]
      by_cases h : g < m
      · rw [if_pos h, if_pos (by omega)]
      · rw [if_neg h, if_neg (by omega)]

theorem Interpolates_char (ops : MathOps) (animRatio : ℚ) (nSoa : ℕ)
    (tr : ℕ → InterpEntry SoaFloat3) (rot : ℕ → InterpEntry SoaQuaternion)
    (sc : ℕ → InterpEntry SoaFloat3) (out : ℕ → SoaTransform) (g : ℕ) :
    Interpolates ops animRatio nSoa tr rot sc out g =
      if g < nSoa then interpGroup ops animRatio (tr g) (rot g) (sc g) else out g := by
  unfold Interpolates
  exact Interp_fold_char ops animRatio tr rot sc out nSoa g

theorem two_pass_operands {κ V : Type} [Inhabited κ] [TrackKey κ]
    {trk : ℕ → ℕ} {keys : List κ} {nSoa : ℕ}
    (hv : ValidStream trk (nSoa * 4) keys)
    (dec : κ → κ → κ → κ → V)
    {r1 r2 : ℚ} (hr1 : 0 ≤ r1) (hr2 : 0 ≤ r2)
    (cache0 : ℕ → ℕ) (od0 : ℕ → Bool) (interp0 : ℕ → InterpEntry V)
    {st1 : ChannelState} (hst1 : st1 = UpdateCacheCursor r2 nSoa keys ⟨0, cache0, od0⟩)
    {uk1 : (ℕ → Bool) × (ℕ → InterpEntry V)}
    (huk1 : uk1 = UpdateInterpKeyframes nSoa keys st1.cache st1.outdated interp0 dec)
    {cur2 : ℕ} (hcur2 : cur2 = 0 ∨ cur2 = st1.cursor)
    {st2 : ChannelState}
    (hst2 : st2 = UpdateCacheCursor r1 nSoa keys ⟨cur2, st1.cache, uk1.1⟩)
    {uk2 : (ℕ → Bool) × (ℕ → InterpEntry V)}
    (huk2 : uk2 = UpdateInterpKeyframes nSoa keys st2.cache st2.outdated uk1.2 dec)
    {stA : ChannelState} (hstA : stA = UpdateCacheCursor r1 nSoa keys ⟨0, cache0, od0⟩)
    {ukA : (ℕ → Bool) × (ℕ → InterpEntry V)}
    (hukA : ukA = UpdateInterpKeyframes nSoa keys stA.cache stA.outdated interp0 dec) :
    ∀ g, uk2.2 g = ukA.2 g := by
  intro g
  have hn1 : 1 ≤ nSoa := by have := hv.1; omega
  have hsort := hv.2.2.2.2.2.2.1
  -- characterisation of the three keyframe-update passes
  obtain ⟨hu1a, hu1b⟩ := UIK_char nSoa keys st1.cache st1.outdated interp0 dec
  rw [← huk1] at hu1a hu1b
  obtain ⟨hu2a, hu2b⟩ := UIK_char nSoa keys st2.cache st2.outdated uk1.2 dec
  rw [← huk2] at hu2a hu2b
  obtain ⟨huAa, huAb⟩ := UIK_char nSoa keys stA.cache stA.outdated interp0 dec
  rw [← hukA] at huAa huAb
  -- fresh-state specs for the first pass and the reference pass
  have hF1 := UpdateCacheCursor_fresh_spec hv hr2
    (show (ChannelState.mk 0 cache0 od0).cursor = 0 from rfl)
  dsimp only at hF1
  rw [← hst1] at hF1
  obtain ⟨hI1, hS1, hB1, hO1⟩ := hF1
  have hFA := UpdateCacheCursor_fresh_spec hv hr1
    (show (ChannelState.mk 0 cache0 od0).cursor = 0 from rfl)
  dsimp only at hFA
  rw [← hstA] at hFA
  obtain ⟨hIA, hSA, hBA, hOA⟩ := hFA
  rcases hcur2 with hc2 | hc2
  · -- second pass takes the reset path: it starts from cursor 0
    have hF2 := UpdateCacheCursor_fresh_spec hv hr1
      (show (ChannelState.mk cur2 st1.cache uk1.1).cursor = 0 from hc2)
    dsimp only at hF2
    rw [← hst2] at hF2
    obtain ⟨hI2, hS2, hB2, hO2⟩ := hF2
    have hcc : st2.cursor = stA.cursor := StopAt_unique hsort hS2 hSA
    have hcache : ∀ i, i < 2 * (nSoa * 4) → st2.cache i = stA.cache i := by
      rw [hcc] at hI2
      exact CacheInv_determined hI2 hIA
    rcases Nat.lt_or_ge g nSoa with hg | hg
    · have hgf : g < 8 * ((nSoa + 7) / 8) := by omega
      have hd2 : st2.outdated g = true := by
        rw [hO2 g, if_pos hgf]
        exact decide_eq_true_eq.mpr hg
      have hdA : stA.outdated g = true := by
        rw [hOA g, if_pos hgf]
        exact decide_eq_true_eq.mpr hg
      rw [hu2b g, huAb g, if_pos ⟨hgf, hd2⟩, if_pos ⟨hgf, hdA⟩]
      exact recomputeEntry_congr keys dec (fun l hl => hcache _ (by omega))
        (fun l hl => hcache _ (by omega))
    · by_cases hgf : g < 8 * ((nSoa + 7) / 8)
      · have hd2 : st2.outdated g = false := by
          rw [hO2 g, if_pos hgf]
          exact decide_eq_false (by omega)
        have hdA : stA.outdated g = false := by
          rw [hOA g, if_pos hgf]
          exact decide_eq_false (by omega)
        have hd1 : st1.outdated g = false := by
          rw [hO1 g, if_pos hgf]
          exact decide_eq_false (by omega)
        rw [hu2b g, if_neg (fun hc => by rw [hd2] at hc; exact absurd hc.2 (by decide)),
          hu1b g, if_neg (fun hc => by rw [hd1] at hc; exact absurd hc.2 (by decide)),
          huAb g, if_neg (fun hc => by rw [hdA] at hc; exact absurd hc.2 (by decide))]
      · rw [hu2b g, if_neg (fun hc => hgf hc.1), hu1b g, if_neg (fun hc => hgf hc.1),
          huAb g, if_neg (fun hc => hgf hc.1)]
  · -- second pass keeps the warm cursor of the first pass
    have hcpos : ¬ cur2 = 0 := by
      rw [hc2]
      have := hS1.1
      omega
    have hInv1 : CacheInv trk keys (nSoa * 4) cur2 st1.cache := by
      rw [hc2]
      exact hI1
    have hF2 := UpdateCacheCursor_warm_spec hv hr1
      (show ¬ (ChannelState.mk cur2 st1.cache uk1.1).cursor = 0 from hcpos) hInv1
    rw [← hst2] at hF2
    have hI2 := hF2.1
    have hS2 := hF2.2.1
    have hD := hF2.2.2
    dsimp only [ChannelDelta] at hD
    obtain ⟨hd1, hd2, hd3, hd4⟩ := hD
    have hcc : st2.cursor = stA.cursor := StopAt_unique hsort hS2 hSA
    have hcache : ∀ i, i < 2 * (nSoa * 4) → st2.cache i = stA.cache i := by
      rw [hcc] at hI2
      exact CacheInv_determined hI2 hIA
    rcases Nat.lt_or_ge g nSoa with hg | hg
    · have hgf : g < 8 * ((nSoa + 7) / 8) := by omega
      have hdA : stA.outdated g = true := by
        rw [hOA g, if_pos hgf]
        exact decide_eq_true_eq.mpr hg
      rw [huAb g, if_pos ⟨hgf, hdA⟩]
      by_cases hd : st2.outdated g = true
      · rw [hu2b g, if_pos ⟨hgf, hd⟩]
        exact recomputeEntry_congr keys dec (fun l hl => hcache _ (by omega))
          (fun l hl => hcache _ (by omega))
      · have hst1d : st1.outdated g = true := by
          rw [hO1 g, if_pos hgf]
          exact decide_eq_true_eq.mpr hg
        rw [hu2b g, if_neg (fun hc => hd hc.2), hu1b g, if_pos ⟨hgf, hst1d⟩]
        have hkeep : ∀ i, i < 2 * (nSoa * 4) → (i % (nSoa * 4)) / 4 = g →
            st2.cache i = st1.cache i := by
          intro i hi hig
          by_contra hne
          have hdirty := hd2 i hi hne
          rw [hig] at hdirty
          exact hd hdirty
        have hmod : ∀ l, l < 4 → ((g * 4 + l) % (nSoa * 4)) / 4 = g := by
          intro l hl
          rw [Nat.mod_eq_of_lt (by omega)]
          omega
        have hmod2 : ∀ l, l < 4 → (((g + nSoa) * 4 + l) % (nSoa * 4)) / 4 = g := by
          intro l hl
          have he : (g + nSoa) * 4 + l = nSoa * 4 + (g * 4 + l) := by omega
          rw [he, Nat.add_mod_left, Nat.mod_eq_of_lt (by omega)]
          omega
        refine recomputeEntry_congr keys dec ?_ ?_
        · intro l hl
          rw [← hkeep _ (by omega) (hmod l hl)]
          exact hcache _ (by omega)
        · intro l hl
          rw [← hkeep _ (by omega) (hmod2 l hl)]
          exact hcache _ (by omega)
    · by_cases hgf : g < 8 * ((nSoa + 7) / 8)
      · have hdA : stA.outdated g = false := by
          rw [hOA g, if_pos hgf]
          exact decide_eq_false (by omega)
        have hd1f : st1.outdated g = false := by
          rw [hO1 g, if_pos hgf]
          exact decide_eq_false (by omega)
        have h1f : uk1.1 g = false := by
          rw [hu1a g, if_pos hgf]
        have hd2f : st2.outdated g = false := by
          by_contra hbad
          rw [Bool.not_eq_false] at hbad
          have h4g := hd4 g (fun he => by
            rw [hbad, h1f] at he
            exact absurd he (by decide))
          omega
        rw [hu2b g, if_neg (fun hc => by rw [hd2f] at hc; exact absurd hc.2 (by decide)),
          hu1b g, if_neg (fun hc => by rw [hd1f] at hc; exact absurd hc.2 (by decide)),
          huAb g, if_neg (fun hc => by rw [hdA] at hc; exact absurd hc.2 (by decide))]
      · rw [hu2b g, if_neg (fun hc => hgf hc.1), hu1b g, if_neg (fun hc => hgf hc.1),
          huAb g, if_neg (fun hc => hgf hc.1)]

theorem RunStep_out (ops : MathOps) (animRatio : ℚ) (animId : ℕ) (anim : Animation)
    (ctx : Context) (out : ℕ → SoaTransform) :
    (RunStep ops animRatio animId anim ctx out).2 =
      Interpolates ops animRatio anim.numSoaTracks
        (UpdateInterpKeyframes anim.numSoaTracks anim.translations
          (UpdateCacheCursor animRatio anim.numSoaTracks anim.translations
            (ContextStep ctx animId animRatio).translationState).cache
          (UpdateCacheCursor animRatio anim.numSoaTracks anim.translations
            (ContextStep ctx animId animRatio).translationState).outdated
          (ContextStep ctx animId animRatio).soaTranslations (DecompressFloat3 ops)).2
        (UpdateInterpKeyframes anim.numSoaTracks anim.rotations
          (UpdateCacheCursor animRatio anim.numSoaTracks anim.rotations
            (ContextStep ctx animId animRatio).rotationState).cache
          (UpdateCacheCursor animRatio anim.numSoaTracks anim.rotations
            (ContextStep ctx animId animRatio).rotationState).outdated
          (ContextStep ctx animId animRatio).soaRotations (DecompressQuaternion ops)).2
        (UpdateInterpKeyframes anim.numSoaTracks anim.scales
          (UpdateCacheCursor animRatio anim.numSoaTracks anim.scales
            (ContextStep ctx animId animRatio).scaleState).cache
          (UpdateCacheCursor animRatio anim.numSoaTracks anim.scales
            (ContextStep ctx animId animRatio).scaleState).outdated
          (ContextStep ctx animId animRatio).soaScales (DecompressFloat3 ops)).2
        out := rfl

theorem Run_pos (ops : MathOps) (r : ℚ) (animId : ℕ) (anim : Animation)
    (ctx : Context) (sz : ℕ) (out : ℕ → SoaTransform)
    (hval : SamplingJob.Validate ⟨r, some (animId, anim), some ctx, sz⟩ = true)
    (hpos : ¬ anim.numSoaTracks = 0) :
    SamplingJob.Run ops ⟨r, some (animId, anim), some ctx, sz⟩ out =
      (true, some (RunStep ops (clampQ 0 r 1) animId anim ctx out).1,
        (RunStep ops (clampQ 0 r 1) animId anim ctx out).2) := by
  unfold SamplingJob.Run
  rw [if_pos hval]
  show (if anim.numSoaTracks = 0 then ((true : Bool), some ctx, out)
    else (true, some (RunStep ops (clampQ 0 r 1) animId anim ctx out).1,
      (RunStep ops (clampQ 0 r 1) animId anim ctx out).2)) = _
  rw [if_neg hpos]

theorem RunStep_rewind (ops : MathOps) (animId : ℕ) (anim : Animation)
    (trkT trkR trkS : ℕ → ℕ) (ctx0 : Context) (out0 : ℕ → SoaTransform)
    (R1 R2 : ℚ)
    (hvT : ValidStream trkT (anim.numSoaTracks * 4) anim.translations)
    (hvR : ValidStream trkR (anim.numSoaTracks * 4) anim.rotations)
    (hvS : ValidStream trkS (anim.numSoaTracks * 4) anim.scales)
    (hc0T : ctx0.translationState.cursor = 0)
    (hc0R : ctx0.rotationState.cursor = 0)
    (hc0S : ctx0.scaleState.cursor = 0)
    (hR1 : 0 ≤ R1) (hR2 : 0 ≤ R2) :
    (RunStep ops R1 animId anim
      (RunStep ops R2 animId anim ctx0 out0).1
      (RunStep ops R2 animId anim ctx0 out0).2).2 =
    (RunStep ops R1 animId anim ctx0 out0).2 := by
  have hstep2 : ContextStep ctx0 animId R2 =
      { ctx0 with lastAnimation := some animId, lastRatio := R2 } :=
    ContextStep_state0 ctx0 animId R2 hc0T hc0R hc0S
  have hstepA : ContextStep ctx0 animId R1 =
      { ctx0 with lastAnimation := some animId, lastRatio := R1 } :=
    ContextStep_state0 ctx0 animId R1 hc0T hc0R hc0S
  obtain ⟨hb1, hb2, hb3, hb4, hb5, hb6, hb7, hb8, hb9, hb10, hb11, hb12, hb13,
    hb14, hb15⟩ :=
    ContextStep_char (RunStep ops R2 animId anim ctx0 out0).1 animId R1
  have hs2T : (ContextStep ctx0 animId R2).translationState =
      ChannelState.mk 0 ctx0.translationState.cache ctx0.translationState.outdated := by
    rw [hstep2]
    exact ChannelState_ext hc0T rfl rfl
  have hsAT : (ContextStep ctx0 animId R1).translationState =
      ChannelState.mk 0 ctx0.translationState.cache ctx0.translationState.outdated := by
    rw [hstepA]
    exact ChannelState_ext hc0T rfl rfl
  have hp2T : (ContextStep ctx0 animId R2).soaTranslations = ctx0.soaTranslations := by
    rw [hstep2]
  have hpAT : (ContextStep ctx0 animId R1).soaTranslations = ctx0.soaTranslations := by
    rw [hstepA]
  have hbT : (RunStep ops R2 animId anim ctx0 out0).1.translationState =
      ChannelState.mk
        (UpdateCacheCursor R2 anim.numSoaTracks anim.translations
          (ContextStep ctx0 animId R2).translationState).cursor
        (UpdateCacheCursor R2 anim.numSoaTracks anim.translations
          (ContextStep ctx0 animId R2).translationState).cache
        (UpdateInterpKeyframes anim.numSoaTracks anim.translations
          (UpdateCacheCursor R2 anim.numSoaTracks anim.translations
            (ContextStep ctx0 animId R2).translationState).cache
          (UpdateCacheCursor R2 anim.numSoaTracks anim.translations
            (ContextStep ctx0 animId R2).translationState).outdated
          (ContextStep ctx0 animId R2).soaTranslations (DecompressFloat3 ops)).1 := rfl
  rw [hs2T, hp2T] at hbT
  have hqT : (RunStep ops R2 animId anim ctx0 out0).1.soaTranslations =
      (UpdateInterpKeyframes anim.numSoaTracks anim.translations
        (UpdateCacheCursor R2 anim.numSoaTracks anim.translations
          (ContextStep ctx0 animId R2).translationState).cache
        (UpdateCacheCursor R2 anim.numSoaTracks anim.translations
          (ContextStep ctx0 animId R2).translationState).outdated
        (ContextStep ctx0 animId R2).soaTranslations (DecompressFloat3 ops)).2 := rfl
  rw [hs2T, hp2T] at hqT
  have hBstT : (ContextStep (RunStep ops R2 animId anim ctx0 out0).1
      animId R1).translationState =
      ChannelState.mk
        (ContextStep (RunStep ops R2 animId anim ctx0 out0).1
          animId R1).translationState.cursor
        (UpdateCacheCursor R2 anim.numSoaTracks anim.translations (ChannelState.mk 0 ctx0.translationState.cache ctx0.translationState.outdated)).cache
        (UpdateInterpKeyframes anim.numSoaTracks anim.translations
          (UpdateCacheCursor R2 anim.numSoaTracks anim.translations (ChannelState.mk 0 ctx0.translationState.cache ctx0.translationState.outdated)).cache
          (UpdateCacheCursor R2 anim.numSoaTracks anim.translations (ChannelState.mk 0 ctx0.translationState.cache ctx0.translationState.outdated)).outdated
          ctx0.soaTranslations (DecompressFloat3 ops)).1 := by
    refine ChannelState_ext rfl ?_ ?_
    · rw [hb6, hbT]
    · rw [hb7, hbT]
  have hsoaBT : (ContextStep (RunStep ops R2 animId anim ctx0 out0).1
      animId R1).soaTranslations =
      (UpdateInterpKeyframes anim.numSoaTracks anim.translations
        (UpdateCacheCursor R2 anim.numSoaTracks anim.translations (ChannelState.mk 0 ctx0.translationState.cache ctx0.translationState.outdated)).cache
        (UpdateCacheCursor R2 anim.numSoaTracks anim.translations (ChannelState.mk 0 ctx0.translationState.cache ctx0.translationState.outdated)).outdated
        ctx0.soaTranslations (DecompressFloat3 ops)).2 := by
    rw [hb13, hqT]
  have hcurT : (ContextStep (RunStep ops R2 animId anim ctx0 out0).1
        animId R1).translationState.cursor = 0 ∨
      (ContextStep (RunStep ops R2 animId anim ctx0 out0).1
        animId R1).translationState.cursor =
      (UpdateCacheCursor R2 anim.numSoaTracks anim.translations (ChannelState.mk 0 ctx0.translationState.cache ctx0.translationState.outdated)).cursor := by
    rw [hb1]
    by_cases hcond : (RunStep ops R2 animId anim ctx0 out0).1.lastAnimation ≠
        some animId ∨
        (kRestartOverhead < (RunStep ops R2 animId anim ctx0 out0).1.lastRatio ∧
          R1 < (RunStep ops R2 animId anim ctx0 out0).1.lastRatio - R1)
    · rw [if_pos hcond]
      exact Or.inl rfl
    · rw [if_neg hcond]
      right
      rw [hbT]
  have hWT := two_pass_operands hvT (DecompressFloat3 ops) hR1 hR2
    ctx0.translationState.cache ctx0.translationState.outdated ctx0.soaTranslations
    rfl rfl hcurT rfl rfl rfl rfl
  have hs2R : (ContextStep ctx0 animId R2).rotationState =
      ChannelState.mk 0 ctx0.rotationState.cache ctx0.rotationState.outdated := by
    rw [hstep2]
    exact ChannelState_ext hc0R rfl rfl
  have hsAR : (ContextStep ctx0 animId R1).rotationState =
      ChannelState.mk 0 ctx0.rotationState.cache ctx0.rotationState.outdated := by
    rw [hstepA]
    exact ChannelState_ext hc0R rfl rfl
  have hp2R : (ContextStep ctx0 animId R2).soaRotations = ctx0.soaRotations := by
    rw [hstep2]
  have hpAR : (ContextStep ctx0 animId R1).soaRotations = ctx0.soaRotations := by
    rw [hstepA]
  have hbR : (RunStep ops R2 animId anim ctx0 out0).1.rotationState =
      ChannelState.mk
        (UpdateCacheCursor R2 anim.numSoaTracks anim.rotations
          (ContextStep ctx0 animId R2).rotationState).cursor
        (UpdateCacheCursor R2 anim.numSoaTracks anim.rotations
          (ContextStep ctx0 animId R2).rotationState).cache
        (UpdateInterpKeyframes anim.numSoaTracks anim.rotations
          (UpdateCacheCursor R2 anim.numSoaTracks anim.rotations
            (ContextStep ctx0 animId R2).rotationState).cache
          (UpdateCacheCursor R2 anim.numSoaTracks anim.rotations
            (ContextStep ctx0 animId R2).rotationState).outdated
          (ContextStep ctx0 animId R2).soaRotations (DecompressQuaternion ops)).1 := rfl
  rw [hs2R, hp2R] at hbR
  have hqR : (RunStep ops R2 animId anim ctx0 out0).1.soaRotations =
      (UpdateInterpKeyframes anim.numSoaTracks anim.rotations
        (UpdateCacheCursor R2 anim.numSoaTracks anim.rotations
          (ContextStep ctx0 animId R2).rotationState).cache
        (UpdateCacheCursor R2 anim.numSoaTracks anim.rotations
          (ContextStep ctx0 animId R2).rotationState).outdated
        (ContextStep ctx0 animId R2).soaRotations (DecompressQuaternion ops)).2 := rfl
  rw [hs2R, hp2R] at hqR
  have hBstR : (ContextStep (RunStep ops R2 animId anim ctx0 out0).1
      animId R1).rotationState =
      ChannelState.mk
        (ContextStep (RunStep ops R2 animId anim ctx0 out0).1
          animId R1).rotationState.cursor
        (UpdateCacheCursor R2 anim.numSoaTracks anim.rotations (ChannelState.mk 0 ctx0.rotationState.cache ctx0.rotationState.outdated)).cache
        (UpdateInterpKeyframes anim.numSoaTracks anim.rotations
          (UpdateCacheCursor R2 anim.numSoaTracks anim.rotations (ChannelState.mk 0 ctx0.rotationState.cache ctx0.rotationState.outdated)).cache
          (UpdateCacheCursor R2 anim.numSoaTracks anim.rotations (ChannelState.mk 0 ctx0.rotationState.cache ctx0.rotationState.outdated)).outdated
          ctx0.soaRotations (DecompressQuaternion ops)).1 := by
    refine ChannelState_ext rfl ?_ ?_
    · rw [hb8, hbR]
    · rw [hb9, hbR]
  have hsoaBR : (ContextStep (RunStep ops R2 animId anim ctx0 out0).1
      animId R1).soaRotations =
      (UpdateInterpKeyframes anim.numSoaTracks anim.rotations
        (UpdateCacheCursor R2 anim.numSoaTracks anim.rotations (ChannelState.mk 0 ctx0.rotationState.cache ctx0.rotationState.outdated)).cache
        (UpdateCacheCursor R2 anim.numSoaTracks anim.rotations (ChannelState.mk 0 ctx0.rotationState.cache ctx0.rotationState.outdated)).outdated
        ctx0.soaRotations (DecompressQuaternion ops)).2 := by
    rw [hb14, hqR]
  have hcurR : (ContextStep (RunStep ops R2 animId anim ctx0 out0).1
        animId R1).rotationState.cursor = 0 ∨
      (ContextStep (RunStep ops R2 animId anim ctx0 out0).1
        animId R1).rotationState.cursor =
      (UpdateCacheCursor R2 anim.numSoaTracks anim.rotations (ChannelState.mk 0 ctx0.rotationState.cache ctx0.rotationState.outdated)).cursor := by
    rw [hb2]
    by_cases hcond : (RunStep ops R2 animId anim ctx0 out0).1.lastAnimation ≠
        some animId ∨
        (kRestartOverhead < (RunStep ops R2 animId anim ctx0 out0).1.lastRatio ∧
          R1 < (RunStep ops R2 animId anim ctx0 out0).1.lastRatio - R1)
    · rw [if_pos hcond]
      exact Or.inl rfl
    · rw [if_neg hcond]
      right
      rw [hbR]
  have hWR := two_pass_operands hvR (DecompressQuaternion ops) hR1 hR2
    ctx0.rotationState.cache ctx0.rotationState.outdated ctx0.soaRotations
    rfl rfl hcurR rfl rfl rfl rfl
  have hs2S : (ContextStep ctx0 animId R2).scaleState =
      ChannelState.mk 0 ctx0.scaleState.cache ctx0.scaleState.outdated := by
    rw [hstep2]
    exact ChannelState_ext hc0S rfl rfl
  have hsAS : (ContextStep ctx0 animId R1).scaleState =
      ChannelState.mk 0 ctx0.scaleState.cache ctx0.scaleState.outdated := by
    rw [hstepA]
    exact ChannelState_ext hc0S rfl rfl
  have hp2S : (ContextStep ctx0 animId R2).soaScales = ctx0.soaScales := by
    rw [hstep2]
  have hpAS : (ContextStep ctx0 animId R1).soaScales = ctx0.soaScales := by
    rw [hstepA]
  have hbS : (RunStep ops R2 animId anim ctx0 out0).1.scaleState =
      ChannelState.mk
        (UpdateCacheCursor R2 anim.numSoaTracks anim.scales
          (ContextStep ctx0 animId R2).scaleState).cursor
        (UpdateCacheCursor R2 anim.numSoaTracks anim.scales
          (ContextStep ctx0 animId R2).scaleState).cache
        (UpdateInterpKeyframes anim.numSoaTracks anim.scales
          (UpdateCacheCursor R2 anim.numSoaTracks anim.scales
            (ContextStep ctx0 animId R2).scaleState).cache
          (UpdateCacheCursor R2 anim.numSoaTracks anim.scales
            (ContextStep ctx0 animId R2).scaleState).outdated
          (ContextStep ctx0 animId R2).soaScales (DecompressFloat3 ops)).1 := rfl
  rw [hs2S, hp2S] at hbS
  have hqS : (RunStep ops R2 animId anim ctx0 out0).1.soaScales =
      (UpdateInterpKeyframes anim.numSoaTracks anim.scales
        (UpdateCacheCursor R2 anim.numSoaTracks anim.scales
          (ContextStep ctx0 animId R2).scaleState).cache
        (UpdateCacheCursor R2 anim.numSoaTracks anim.scales
          (ContextStep ctx0 animId R2).scaleState).outdated
        (ContextStep ctx0 animId R2).soaScales (DecompressFloat3 ops)).2 := rfl
  rw [hs2S, hp2S] at hqS
  have hBstS : (ContextStep (RunStep ops R2 animId anim ctx0 out0).1
      animId R1).scaleState =
      ChannelState.mk
        (ContextStep (RunStep ops R2 animId anim ctx0 out0).1
          animId R1).scaleState.cursor
        (UpdateCacheCursor R2 anim.numSoaTracks anim.scales (ChannelState.mk 0 ctx0.scaleState.cache ctx0.scaleState.outdated)).cache
        (UpdateInterpKeyframes anim.numSoaTracks anim.scales
          (UpdateCacheCursor R2 anim.numSoaTracks anim.scales (ChannelState.mk 0 ctx0.scaleState.cache ctx0.scaleState.outdated)).cache
          (UpdateCacheCursor R2 anim.numSoaTracks anim.scales (ChannelState.mk 0 ctx0.scaleState.cache ctx0.scaleState.outdated)).outdated
          ctx0.soaScales (DecompressFloat3 ops)).1 := by
    refine ChannelState_ext rfl ?_ ?_
    · rw [hb10, hbS]
    · rw [hb11, hbS]
  have hsoaBS : (ContextStep (RunStep ops R2 animId anim ctx0 out0).1
      animId R1).soaScales =
      (UpdateInterpKeyframes anim.numSoaTracks anim.scales
        (UpdateCacheCursor R2 anim.numSoaTracks anim.scales (ChannelState.mk 0 ctx0.scaleState.cache ctx0.scaleState.outdated)).cache
        (UpdateCacheCursor R2 anim.numSoaTracks anim.scales (ChannelState.mk 0 ctx0.scaleState.cache ctx0.scaleState.outdated)).outdated
        ctx0.soaScales (DecompressFloat3 ops)).2 := by
    rw [hb15, hqS]
  have hcurS : (ContextStep (RunStep ops R2 animId anim ctx0 out0).1
        animId R1).scaleState.cursor = 0 ∨
      (ContextStep (RunStep ops R2 animId anim ctx0 out0).1
        animId R1).scaleState.cursor =
      (UpdateCacheCursor R2 anim.numSoaTracks anim.scales (ChannelState.mk 0 ctx0.scaleState.cache ctx0.scaleState.outdated)).cursor := by
    rw [hb3]
    by_cases hcond : (RunStep ops R2 animId anim ctx0 out0).1.lastAnimation ≠
        some animId ∨
        (kRestartOverhead < (RunStep ops R2 animId anim ctx0 out0).1.lastRatio ∧
          R1 < (RunStep ops R2 animId anim ctx0 out0).1.lastRatio - R1)
    · rw [if_pos hcond]
      exact Or.inl rfl
    · rw [if_neg hcond]
      right
      rw [hbS]
  have hWS := two_pass_operands hvS (DecompressFloat3 ops) hR1 hR2
    ctx0.scaleState.cache ctx0.scaleState.outdated ctx0.soaScales
    rfl rfl hcurS rfl rfl rfl rfl
  rw [RunStep_out ops R1 animId anim (RunStep ops R2 animId anim ctx0 out0).1
      (RunStep ops R2 animId anim ctx0 out0).2,
    RunStep_out ops R1 animId anim ctx0 out0,
    hBstT, hBstR, hBstS, hsoaBT, hsoaBR, hsoaBS,
    hsAT, hsAR, hsAS, hpAT, hpAR, hpAS]
  funext g
  rw [Interpolates_char, Interpolates_char]
  by_cases hg : g < anim.numSoaTracks
  · rw [if_pos hg, if_pos hg, hWT g, hWR g, hWS g]
  · rw [if_neg hg, if_neg hg,
      RunStep_out ops R2 animId anim ctx0 out0, Interpolates_char, if_neg hg]

/-- Claim C2: for a valid clip (each channel stream valid in the
`ValidStream` sense), ratios 0 ≤ r1 < r2 ≤ 1 and a context whose three
cursors are fresh, running the sampler at r2 and then at r1 with the same
context produces output bit-identical to running at r1 with a freshly reset
context, and both runs succeed.  The proof covers both branches of
`Context::Step` for the second run (backward rewind keeping the cursor, and
cursor reset), hence both sides of the restart threshold. -/
theorem C2_rewind_bit_identical (ops : MathOps) (animId : ℕ) (anim : Animation)
    (trkT trkR trkS : ℕ → ℕ) (ctx0 : Context) (sz : ℕ) (out0 : ℕ → SoaTransform)
    (r1 r2 : ℚ)
    (hvT : ValidStream trkT (anim.numSoaTracks * 4) anim.translations)
    (hvR : ValidStream trkR (anim.numSoaTracks * 4) anim.rotations)
    (hvS : ValidStream trkS (anim.numSoaTracks * 4) anim.scales)
    (hc0T : ctx0.translationState.cursor = 0)
    (hc0R : ctx0.rotationState.cursor = 0)
    (hc0S : ctx0.scaleState.cursor = 0)
    (hcap : anim.numSoaTracks ≤ ctx0.maxSoaTracks)
    (hsz : anim.numSoaTracks ≤ sz) (hsz0 : sz ≠ 0)
    (hr10 : 0 ≤ r1) (hr12 : r1 < r2) (hr21 : r2 ≤ 1) :
    (SamplingJob.Run ops ⟨r2, some (animId, anim), some ctx0, sz⟩ out0).1 = true ∧
    (SamplingJob.Run ops
      ⟨r1, some (animId, anim),
        (SamplingJob.Run ops ⟨r2, some (animId, anim), some ctx0, sz⟩ out0).2.1, sz⟩
      (SamplingJob.Run ops ⟨r2, some (animId, anim), some ctx0, sz⟩ out0).2.2).1 =
      true ∧
    (SamplingJob.Run ops
      ⟨r1, some (animId, anim),
        (SamplingJob.Run ops ⟨r2, some (animId, anim), some ctx0, sz⟩ out0).2.1, sz⟩
      (SamplingJob.Run ops ⟨r2, some (animId, anim), some ctx0, sz⟩ out0).2.2).2.2 =
    (SamplingJob.Run ops ⟨r1, some (animId, anim), some ctx0, sz⟩ out0).2.2 := by
  have hpos : ¬ anim.numSoaTracks = 0 := by
    have := hvT.1
    omega
  have hval2 : SamplingJob.Validate ⟨r2, some (animId, anim), some ctx0, sz⟩ = true := by
    simp [SamplingJob.Validate, hsz, hcap, hsz0]
  have hvalA : SamplingJob.Validate ⟨r1, some (animId, anim), some ctx0, sz⟩ = true := by
    simp [SamplingJob.Validate, hsz, hcap, hsz0]
  have hmaxB : (RunStep ops (clampQ 0 r2 1) animId anim ctx0 out0).1.maxSoaTracks =
      ctx0.maxSoaTracks := by
    have h : (RunStep ops (clampQ 0 r2 1) animId anim ctx0 out0).1.maxSoaTracks =
        (ContextStep ctx0 animId (clampQ 0 r2 1)).maxSoaTracks := rfl
    rw [h, ContextStep_state0 ctx0 animId (clampQ 0 r2 1) hc0T hc0R hc0S]
  have hvalB : SamplingJob.Validate ⟨r1, some (animId, anim),
      some (RunStep ops (clampQ 0 r2 1) animId anim ctx0 out0).1, sz⟩ = true := by
    simp [SamplingJob.Validate, hsz, hsz0, hmaxB, hcap]
  rw [Run_pos ops r2 animId anim ctx0 sz out0 hval2 hpos]
  dsimp only
  rw [Run_pos ops r1 animId anim (RunStep ops (clampQ 0 r2 1) animId anim ctx0 out0).1
      sz (RunStep ops (clampQ 0 r2 1) animId anim ctx0 out0).2 hvalB hpos,
    Run_pos ops r1 animId anim ctx0 sz out0 hvalA hpos]
  refine ⟨rfl, rfl, ?_⟩
  exact RunStep_rewind ops animId anim trkT trkR trkS ctx0 out0
    (clampQ 0 r1 1) (clampQ 0 r2 1) hvT hvR hvS hc0T hc0R hc0S
    (clampQ_mem r1).1 (clampQ_mem r2).1

/-- Witness for C2 on the one-group clip `wAnim` from the fresh context
`wCtx`: sampling at 1/2 and then rewinding to 1/10 matches a direct fresh
sample at 1/10 and both runs succeed. -/
theorem C2_rewind_bit_identical_witness :
    ValidStream exTrk (wAnim.numSoaTracks * 4) wAnim.translations ∧
    ValidStream exTrk (wAnim.numSoaTracks * 4) wAnim.rotations ∧
    ValidStream exTrk (wAnim.numSoaTracks * 4) wAnim.scales ∧
    wCtx.translationState.cursor = 0 ∧
    wCtx.rotationState.cursor = 0 ∧
    wCtx.scaleState.cursor = 0 ∧
    wAnim.numSoaTracks ≤ wCtx.maxSoaTracks ∧
    wAnim.numSoaTracks ≤ 1 ∧ (1 : ℕ) ≠ 0 ∧
    (0 : ℚ) ≤ mkRat 1 10 ∧ (mkRat 1 10 : ℚ) < mkRat 1 2 ∧ (mkRat 1 2 : ℚ) ≤ 1 ∧
    ((SamplingJob.Run junkOps ⟨mkRat 1 2, some (7, wAnim), some wCtx, 1⟩ junkOut).1 =
      true ∧
     (SamplingJob.Run junkOps
       ⟨mkRat 1 10, some (7, wAnim),
         (SamplingJob.Run junkOps ⟨mkRat 1 2, some (7, wAnim), some wCtx, 1⟩
           junkOut).2.1, 1⟩
       (SamplingJob.Run junkOps ⟨mkRat 1 2, some (7, wAnim), some wCtx, 1⟩
         junkOut).2.2).1 = true ∧
     (SamplingJob.Run junkOps
       ⟨mkRat 1 10, some (7, wAnim),
         (SamplingJob.Run junkOps ⟨mkRat 1 2, some (7, wAnim), some wCtx, 1⟩
           junkOut).2.1, 1⟩
       (SamplingJob.Run junkOps ⟨mkRat 1 2, some (7, wAnim), some wCtx, 1⟩
         junkOut).2.2).2.2 =
     (SamplingJob.Run junkOps ⟨mkRat 1 10, some (7, wAnim), some wCtx, 1⟩
       junkOut).2.2) :=
  ⟨by decide, by decide, by decide, rfl, rfl, rfl, by decide, by decide, by decide,
   by decide, by decide, by decide,
   C2_rewind_bit_identical junkOps 7 wAnim exTrk exTrk exTrk wCtx 1 junkOut
     (mkRat 1 10) (mkRat 1 2) (by decide) (by decide) (by decide) rfl rfl rfl
     (by decide) (by decide) (by decide) (by decide) (by decide) (by decide)⟩
